import Mathlib

/-!
Verification development for the supportiq ticket enrichment and routing
pipeline.  The Python services are shallowly embedded in Lean:

* Python `str` values are modelled as `List Char` (scanning text) or
  `String` (atomic tokens such as category slugs and tier names);
* Python floats are modelled as rationals (`ℚ`); all values reaching the
  comparisons proved about here are exactly representable, and `round(x, n)`
  is modelled by half-even rounding on `ℚ`;
* database rows (`Agent`, `Ticket`, `RoutingRule`) are Lean structures and
  the database is a list of rows;
* fallible external calls (OpenAI, HuggingFace, Redis, the knowledge base)
  are explicit outcome parameters of type `Except Unit _` / `Option _`;
* text handling is restricted to the ASCII range: Unicode NFC normalization
  is the identity there, and `str.lower` agrees with ASCII lowercasing.
-/

namespace SupportIQ

/- Batteries marks the rational-number operations `@[irreducible]`, which
blocks `decide` on concrete rational computations; restore the default
transparency for this file so that witnesses evaluate. -/
attribute [local semireducible] Rat.add Rat.mul Rat.sub Rat.inv
  Rat.ofScientific

/-! ## Basic Python string primitives -/

/-- Characters stripped by Python `str.strip()` (ASCII range of
`str.isspace`). -/
def pyWs (c : Char) : Bool :=
  c = ' ' || c = '\t' || c = '\n' || c = '\x0d' || c = '\x0b' || c = '\x0c' ||
    (0x1c ≤ c.toNat && c.toNat ≤ 0x1f)

/-- Characters matched by the Python regex class `\s` (ASCII range). -/
def reWs (c : Char) : Bool :=
  c = ' ' || c = '\t' || c = '\n' || c = '\x0d' || c = '\x0b' || c = '\x0c'

/-- ASCII lowercasing, modelling Python `str.lower` on the ASCII range. -/
def lowerC (c : Char) : Char := c.toLower

/-- Lowercase a whole string. -/
def lowerS (l : List Char) : List Char := l.map lowerC

/-- Python `str.strip()`: drop leading and trailing whitespace. -/
def pyStrip (l : List Char) : List Char :=
  ((l.dropWhile pyWs).reverse.dropWhile pyWs).reverse

/-- Boolean "is a (case-sensitive) prefix of". -/
def isPre : List Char → List Char → Bool
  | [], _ => true
  | _ :: _, [] => false
  | x :: xs, y :: ys => x = y && isPre xs ys

/-- Boolean "is a case-insensitive (ASCII) prefix of". -/
def isPreCI : List Char → List Char → Bool
  | [], _ => true
  | _ :: _, [] => false
  | x :: xs, y :: ys => lowerC x = lowerC y && isPreCI xs ys

/-- Python `a in b` on strings: contiguous substring test. -/
def isSub (a : List Char) : List Char → Bool
  | [] => isPre a []
  | c :: xs => isPre a (c :: xs) || isSub a xs

/-- Case-insensitive substring search, modelling
`re.search(literal, text, re.IGNORECASE)` for a literal pattern. -/
def isSubCI (a : List Char) : List Char → Bool
  | [] => isPreCI a []
  | c :: xs => isPreCI a (c :: xs) || isSubCI a xs

/-- Python truthiness of an optional string (`None` and `""` are falsy). -/
def optStrTruthy : Option String → Bool
  | none => false
  | some s => s ≠ ""

/-- Python `x or d` for strings (`""` falls back to the default). -/
def pyOrStr (s d : String) : String := if s = "" then d else s

/-- Python `x or 1` for a number (`0` falls back to `1`). -/
def pyOr1 (x : ℚ) : ℚ := if x = 0 then 1 else x

/-- Lexicographic `≤` on code points, modelling Python string comparison
(used for `"HH:MM"` time-of-day strings). -/
def chLe : List Char → List Char → Bool
  | [], _ => true
  | _ :: _, [] => false
  | x :: xs, y :: ys =>
    if x.toNat < y.toNat then true
    else if x.toNat > y.toNat then false
    else chLe xs ys

/-- Python `a <= b` on strings. -/
def strLe (a b : String) : Bool := chLe a.data b.data

/-- Round half-to-even to an integer, modelling Python `round(x)`.  All
values this development rounds are exactly representable rationals, on
which this agrees with CPython's float rounding. -/
def halfEvenRound (x : ℚ) : ℤ :=
  let n := x.floor
  let r := x - (n : ℚ)
  if r < 1 / 2 then n
  else if r > 1 / 2 then n + 1
  else if n % 2 = 0 then n else n + 1

/-- Python `round(x, p)` modelled on exact rationals. -/
def qRound (p : ℕ) (x : ℚ) : ℚ :=
  (halfEvenRound (x * (10 : ℚ) ^ p) : ℚ) / (10 : ℚ) ^ p

/-- Number of hits of a lowercase lexicon inside an already-lowercased
text: `sum(1 for w in words if w in text_lower)`. -/
def countHits (words : List String) (textLower : List Char) : Nat :=
  words.countP (fun w => isSub w.data textLower)

/-! ## Sentiment analyzer (`src/services/sentiment.py`) -/

namespace Sentiment

/-- Turkish positive indicator lexicon (`SentimentAnalyzer.POSITIVE_TR`). -/
def POSITIVE_TR : List String :=
  ["teşekkür", "memnun", "harika", "güzel", "mükemmel", "süper",
   "çok iyi", "başarılı", "mutlu", "sevindim", "beğendim", "muhteşem"]

/-- Turkish negative indicator lexicon (`SentimentAnalyzer.NEGATIVE_TR`). -/
def NEGATIVE_TR : List String :=
  ["sorun", "problem", "hata", "kötü", "berbat", "rezalet",
   "memnuniyetsiz", "mutsuz", "hayal kırıklığı", "üzgün", "kızgın"]

/-- Turkish angry indicator lexicon (`SentimentAnalyzer.ANGRY_TR`). -/
def ANGRY_TR : List String :=
  ["rezalet", "skandal", "kabul edilemez", "saçmalık", "utanç",
   "inanılmaz", "dava", "şikayet", "berbat", "felaket", "çok kızgın"]

/-- English positive indicator lexicon (`SentimentAnalyzer.POSITIVE_EN`). -/
def POSITIVE_EN : List String :=
  ["thank", "thanks", "great", "excellent", "wonderful", "happy",
   "satisfied", "love", "amazing", "perfect", "awesome"]

/-- English negative indicator lexicon (`SentimentAnalyzer.NEGATIVE_EN`). -/
def NEGATIVE_EN : List String :=
  ["problem", "issue", "bad", "terrible", "awful", "disappointed",
   "unhappy", "frustrated", "annoyed", "upset", "wrong"]

/-- English angry indicator lexicon (`SentimentAnalyzer.ANGRY_EN`). -/
def ANGRY_EN : List String :=
  ["unacceptable", "outrageous", "ridiculous", "furious", "lawsuit",
   "complaint", "worst", "hate", "disgusting", "horrible"]

/-- Language-specific angry lexicon selection. -/
def angryWords (language : String) : List String :=
  if language = "tr" then ANGRY_TR else ANGRY_EN

/-- Language-specific positive lexicon selection. -/
def positiveWords (language : String) : List String :=
  if language = "tr" then POSITIVE_TR else POSITIVE_EN

/-- Language-specific negative lexicon selection. -/
def negativeWords (language : String) : List String :=
  if language = "tr" then NEGATIVE_TR else NEGATIVE_EN

/-- Result of a sentiment analysis.  Keys that an external model may omit
are `Option`s; `sentiment` is always present on every return path. -/
structure SResult where
  sentiment : String
  score : Option ℚ
  confidence : Option ℚ
  angerLevel : Option ℚ
  satisfaction : Option ℤ
  method : String
  deriving DecidableEq, Repr

/-- A raw structured reply from the external OpenAI model (arbitrary JSON,
so every field may be missing). -/
structure RawSentiment where
  sentiment : Option String
  score : Option ℚ
  confidence : Option ℚ
  angerLevel : Option ℚ
  satisfaction : Option ℤ
  deriving DecidableEq, Repr

/-- A raw reply from a HuggingFace sentiment pipeline. -/
structure RawHf where
  label : String
  score : ℚ
  deriving DecidableEq, Repr

/-- `SentimentAnalyzer._analyze_with_rules`: rule-based fallback. -/
def analyzeWithRules (text : List Char) (language : String) : SResult :=
  let textLower := lowerS text
  let positiveCount := countHits (positiveWords language) textLower
  let negativeCount := countHits (negativeWords language) textLower
  let angryCount := countHits (angryWords language) textLower
  let total : ℚ := (positiveCount : ℚ) + (negativeCount : ℚ) + 1
  let score : ℚ := ((positiveCount : ℚ) - (negativeCount : ℚ)) / total
  let angerLevel : ℚ := min ((angryCount : ℚ) * (1 / 4)) 1
  let sentiment : String :=
    if angerLevel ≥ 7 / 10 then "angry"
    else if score > 1 / 5 then "positive"
    else if score < -(1 / 5) then "negative"
    else "neutral"
  let satisfaction : ℚ :=
    if sentiment = "positive" then 4 + score
    else if sentiment = "angry" then 1
    else if sentiment = "negative" then 2 - score
    else 3
  { sentiment := sentiment
    score := some (qRound 3 score)
    confidence := some (3 / 5)
    angerLevel := some (qRound 3 angerLevel)
    satisfaction := some (halfEvenRound (min (max satisfaction 1) 5))
    method := "rule_based" }

/-- `SentimentAnalyzer._detect_anger`: anger heuristic used by the
HuggingFace path. -/
def detectAnger (text : List Char) (language : String) : ℚ :=
  let textLower := lowerS text
  let count := countHits (angryWords language) textLower
  let capsFrac : ℚ :=
    ((text.countP (fun c => c.isUpper)) : ℚ) / (max text.length 1 : ℕ)
  let exclamationCount := text.count '!'
  min ((count : ℚ) * (1 / 5) + capsFrac * (1 / 2) +
    (exclamationCount : ℚ) * (1 / 10)) 1

/-- `SentimentAnalyzer._predict_satisfaction`. -/
def predictSatisfaction (sentiment : String) (score : ℚ) : ℤ :=
  let base : ℚ :=
    if sentiment = "positive" then 4
    else if sentiment = "neutral" then 3
    else if sentiment = "negative" then 2
    else if sentiment = "angry" then 1
    else 3
  halfEvenRound (min (max (base + score * (1 / 2)) 1) 5)

/-- `SentimentAnalyzer._analyze_with_huggingface` on a successfully
returned model reply (`result = model(text[:512])[0]`). -/
def analyzeWithHuggingface (hf : RawHf) (text : List Char)
    (language : String) : SResult :=
  let label := lowerS hf.label.data
  let s0 : String × ℚ :=
    if isSub "positive".data label || isSub "pos".data label then
      ("positive", hf.score)
    else if isSub "negative".data label || isSub "neg".data label then
      ("negative", -hf.score)
    else ("neutral", 0)
  let angerLevel := detectAnger text language
  let sentiment := if angerLevel ≥ 7 / 10 then "angry" else s0.1
  { sentiment := sentiment
    score := some (qRound 3 s0.2)
    confidence := some (qRound 3 hf.score)
    angerLevel := some (qRound 3 angerLevel)
    satisfaction := some (predictSatisfaction sentiment s0.2)
    method := "huggingface" }

/-- The valid sentiment labels (`[s.value for s in Sentiment]`). -/
def validLabels : List String := ["positive", "neutral", "negative", "angry"]

/-- The two post-steps of `SentimentAnalyzer.analyze` applied to a result
produced inside the `try` block: label validation, then the
anger-level override. -/
def postValidate (r : SResult) : SResult :=
  let r := if r.sentiment ∈ validLabels then r
           else { r with sentiment := "neutral" }
  if r.angerLevel.getD 0 ≥ 7 / 10 then { r with sentiment := "angry" } else r

/-- The `method == "auto"` resolution step of `analyze`. -/
def resolveMethod (hasKey : Bool) (method : String) : String :=
  if method = "auto" then (if hasKey then "openai" else "rules") else method

/-- The result returned for empty or whitespace-only input. -/
def emptySResult : SResult :=
  { sentiment := "neutral"
    score := some 0
    confidence := some 0
    angerLevel := some 0
    satisfaction := some 3
    method := "default" }

/-- `SentimentAnalyzer.analyze`.  `extOutcome`/`hfOutcome` stand for the
external OpenAI call and the HuggingFace model (including any raised
exception), `hasKey` for the truthiness of `settings.openai_api_key` and
`useHf` for `self.use_huggingface`. -/
def analyze (hasKey useHf : Bool) (extOutcome : Except Unit RawSentiment)
    (hfOutcome : Except Unit RawHf) (text : List Char) (language : String)
    (method : String) : SResult :=
  if text = [] || pyStrip text = [] then emptySResult
  else
    let text := (pyStrip text).take 2000
    let method := resolveMethod hasKey method
    if method = "openai" then
      match extOutcome with
      | .error _ => analyzeWithRules text language
      | .ok raw =>
        let r : SResult :=
          { sentiment := raw.sentiment.getD "neutral"
            score := raw.score
            confidence := raw.confidence
            angerLevel := raw.angerLevel
            satisfaction := raw.satisfaction
            method := "openai" }
        postValidate r
    else if method = "huggingface" && useHf then
      match hfOutcome with
      | .error _ => analyzeWithRules text language
      | .ok raw => postValidate (analyzeWithHuggingface raw text language)
    else
      postValidate (analyzeWithRules text language)

end Sentiment

/-! ## Classifier (`src/services/classifier.py`) -/

namespace Classifier

/-- `TicketClassifier.DEFAULT_CATEGORIES`. -/
def DEFAULT_CATEGORIES : List String :=
  ["technical_issue", "billing_question", "feature_request", "bug_report",
   "account_management", "return_refund", "general_inquiry", "complaint"]

/-- The keyword map of `TicketClassifier._rule_based_fallback`. -/
def keywordMap : List (String × List String) :=
  [("technical_issue",
    ["error", "failure", "not working", "broken", "crash",
     "bug", "issue", "problem", "glitch", "defective"]),
   ("billing_question",
    ["invoice", "payment", "charge", "price", "cost",
     "bill", "receipt", "subscription", "fee", "refund"]),
   ("feature_request",
    ["feature", "suggestion", "add", "request", "improve",
     "enhancement", "idea", "would be nice"]),
   ("bug_report",
    ["bug", "defect", "flaw", "wrong", "unexpected",
     "error", "glitch", "malfunction"]),
   ("account_management",
    ["account", "password", "login", "profile", "access",
     "register", "signup", "signin", "auth"]),
   ("return_refund",
    ["return", "refund", "exchange", "cancel", "money back",
     "reimbursement"]),
   ("complaint",
    ["complaint", "unhappy", "terrible", "bad", "worst",
     "disappointed", "awful", "horrible", "upset", "angry"])]

/-- A classification result.  `confidence` is optional because the AI path
copies it from arbitrary external JSON. -/
structure ClsResult where
  primaryCategory : String
  confidence : Option ℚ
  allCategories : List (String × ℚ)
  method : String
  deriving DecidableEq, Repr

/-- Raw structured reply from the external classifier model. -/
structure RawCls where
  primaryCategory : Option String
  confidence : Option ℚ
  allCategories : List (String × ℚ)
  deriving DecidableEq, Repr

/-- Which side effects a `classify` call performed. -/
structure ClsEffects where
  cacheRead : Bool
  cacheWrite : Bool
  externalCall : Bool
  deriving DecidableEq, Repr

/-- No side effects. -/
def noEffects : ClsEffects :=
  { cacheRead := false, cacheWrite := false, externalCall := false }

/-- The result returned for empty or whitespace-only input. -/
def emptyClsResult : ClsResult :=
  { primaryCategory := "general_inquiry"
    confidence := some 0
    allCategories := [("general_inquiry", 1)]
    method := "default" }

/-- First maximal entry of a score table, modelling Python
`max(scores, key=scores.get)` over insertion order. -/
def maxByScore : List (String × ℚ) → String × ℚ
  | [] => ("general_inquiry", 0)
  | s :: ss => ss.foldl (fun acc p => if p.2 > acc.2 then p else acc) s

/-- `TicketClassifier._rule_based_fallback`. -/
def ruleBasedFallback (text : List Char) : ClsResult :=
  let textLower := lowerS text
  let scores : List (String × ℚ) :=
    (keywordMap.map fun p =>
      (p.1, min ((countHits p.2 textLower : ℚ) * (1 / 5)) (9 / 10)))
    ++ [("general_inquiry", 3 / 10)]
  let best := maxByScore scores
  let total := pyOr1 ((scores.map (·.2)).sum)
  { primaryCategory := best.1
    confidence := some (qRound 3 best.2)
    allCategories := scores.map fun p => (p.1, qRound 3 (p.2 / total))
    method := "rule_based" }

/-- `TicketClassifier.classify`.  `cacheEnabled` is `self.cache_enabled`
(already conjoined with `settings.redis_url`), `cached` the value Redis
returns for the text hash, and `extOutcome` the external OpenAI call. -/
def classify (cacheEnabled : Bool) (cached : Option ClsResult)
    (extOutcome : Except Unit RawCls) (text : List Char) (useCache : Bool) :
    ClsResult × ClsEffects :=
  if text = [] || pyStrip text = [] then (emptyClsResult, noEffects)
  else
    let text := (pyStrip text).take 5000
    let usingCache := useCache && cacheEnabled
    let afterCache : Option (ClsResult × ClsEffects) :=
      if usingCache then
        match cached with
        | some c =>
          some ({ c with method := "ai_cached" },
                { cacheRead := true, cacheWrite := false,
                  externalCall := false })
        | none => none
      else none
    match afterCache with
    | some hit => hit
    | none =>
      match extOutcome with
      | .ok raw =>
        match raw.primaryCategory with
        | none =>
          -- `raise ClassificationError(...)`, caught by the same `except`
          (ruleBasedFallback text,
           { cacheRead := usingCache, cacheWrite := false,
             externalCall := true })
        | some pc =>
          let pc := if pc ∈ DEFAULT_CATEGORIES then pc else "general_inquiry"
          ({ primaryCategory := pc
             confidence := raw.confidence
             allCategories := raw.allCategories
             method := "ai" },
           { cacheRead := usingCache, cacheWrite := usingCache,
             externalCall := true })
      | .error _ =>
        (ruleBasedFallback text,
         { cacheRead := usingCache, cacheWrite := false,
           externalCall := true })

end Classifier

/-! ## Priority scorer (`src/services/priority_scorer.py`) -/

namespace PriorityScorer

/-- `PriorityScorer.URGENT_KEYWORDS` (both languages are always scanned by
`_check_keywords`). -/
def URGENT_KEYWORDS : List String :=
  ["urgent", "asap", "immediately", "critical", "emergency",
   "right now", "can't wait", "deadline", "down", "outage",
   "acil", "hemen", "kritik", "acilen", "ivedi", "derhal",
   "bekleyemez", "şimdi", "çöktü", "erişilemiyor"]

/-- `PriorityScorer.HIGH_KEYWORDS` (both languages). -/
def HIGH_KEYWORDS : List String :=
  ["not working", "broken", "error", "can't access", "failed",
   "stuck", "blocked", "crash", "lost", "missing", "deleted",
   "çalışmıyor", "bozuk", "hata", "erişemiyorum", "başarısız",
   "takıldı", "engellendi", "çöktü", "kayboldu", "silindi"]

/-- `PriorityScorer.CRITICAL_CATEGORIES`. -/
def CRITICAL_CATEGORIES : List (String × ℤ) :=
  [("technical_issue", 1), ("bug_report", 1), ("complaint", 2)]

/-- `PriorityScorer.LOW_PRIORITY_CATEGORIES`. -/
def LOW_PRIORITY_CATEGORIES : List (String × ℤ) :=
  [("feature_request", -1), ("general_inquiry", 0)]

/-- `PriorityScorer.TIER_BOOSTS`. -/
def TIER_BOOSTS : List (String × ℤ) :=
  [("enterprise", 2), ("vip", 2), ("premium", 1), ("standard", 0),
   ("free", -1)]

/-- `PriorityScorer.LEVEL_MAP` with the `.get(score, MEDIUM)` default. -/
def levelOf (score : ℤ) : String :=
  if score = 5 then "critical"
  else if score = 4 then "high"
  else if score = 3 then "medium"
  else if score = 2 then "low"
  else if score = 1 then "minimal"
  else "medium"

/-- `_check_keywords`: does any keyword occur in the lowercased text? -/
def keywordHit (keywords : List String) (text : List Char) : Bool :=
  keywords.any fun w => isSub w.data (lowerS text)

/-- ASCII `\w` (the development restricts regex scanning to ASCII text). -/
def isWordChar (c : Char) : Bool :=
  c.isAlpha || c.isDigit || c = '_'

/-- After a match of `by ` the regex `\w+ \d+` must follow: a nonempty run
of word characters, a space and a digit.  Because word characters, the
space and digits are pairwise disjoint this backtracking-free check is
exactly the regex semantics. -/
def afterBy (r : List Char) : Bool :=
  let run := r.takeWhile isWordChar
  !run.isEmpty &&
    (match r.drop run.length with
     | ' ' :: d :: _ => d.isDigit
     | _ => false)

/-- `re.search(r"by \w+ \d+", text, re.IGNORECASE)`. -/
def hasByPattern : List Char → Bool
  | [] => false
  | c :: xs =>
    (lowerC c = 'b' &&
      (match xs with
       | y :: sp :: rest => lowerC y = 'y' && sp = ' ' && afterBy rest
       | _ => false)) ||
    hasByPattern xs

/-- The deadline regex family of `_analyze_text_patterns`. -/
def hasDeadlineMention (text : List Char) : Bool :=
  isSubCI "deadline".data text || isSubCI "due date".data text ||
  hasByPattern text || isSubCI "until".data text ||
  isSubCI "son tarih".data text || isSubCI "tarihe kadar".data text ||
  isSubCI "süre".data text

/-- `re.search(r"\$\d+", ...)` and the `€`/`£` variants: a currency sign
immediately followed by a digit. -/
def hasCurrencyAmount (sign : Char) : List Char → Bool
  | [] => false
  | c :: xs =>
    (c = sign && (match xs with | d :: _ => d.isDigit | [] => false)) ||
    hasCurrencyAmount sign xs

/-- `re.search(r"\d+\s*(TL|tl|lira|dolar|euro)", text, re.IGNORECASE)`.
The digit run and the whitespace run are disjoint from the alternative
literals, so the backtracking-free scan is exact. -/
def hasAmountCurrency : List Char → Bool
  | [] => false
  | c :: xs =>
    (c.isDigit &&
      (let rest := (xs.dropWhile Char.isDigit).dropWhile reWs
       isPreCI "tl".data rest || isPreCI "lira".data rest ||
       isPreCI "dolar".data rest || isPreCI "euro".data rest)) ||
    hasAmountCurrency xs

/-- The money regex family of `_analyze_text_patterns`. -/
def hasMoneyMention (text : List Char) : Bool :=
  hasCurrencyAmount '$' text || hasCurrencyAmount '€' text ||
  hasCurrencyAmount '£' text || hasAmountCurrency text ||
  isSubCI "para".data text || isSubCI "ücret".data text ||
  isSubCI "ödeme".data text || isSubCI "fatura".data text

/-- Count of whitespace-separated words: `len(text.split())`. -/
def countWordsAux : Bool → List Char → ℕ
  | _, [] => 0
  | inWord, c :: xs =>
    if pyWs c then countWordsAux false xs
    else (if inWord then 0 else 1) + countWordsAux true xs

/-- The pattern record of `_analyze_text_patterns`. -/
structure TextPatterns where
  capsFrac : ℚ
  exclamationCount : ℕ
  questionMarks : ℕ
  wordCount : ℕ
  hasDeadline : Bool
  hasMoney : Bool
  deriving DecidableEq, Repr

/-- `PriorityScorer._analyze_text_patterns` (`caps_ratio` is named
`capsFrac` here). -/
def analyzeTextPatterns (text : List Char) : TextPatterns :=
  if text = [] then
    { capsFrac := 0, exclamationCount := 0, questionMarks := 0,
      wordCount := 0, hasDeadline := false, hasMoney := false }
  else
    let alphaChars := text.filter Char.isAlpha
    { capsFrac :=
        if alphaChars = [] then 0
        else ((alphaChars.countP Char.isUpper : ℚ) / (alphaChars.length : ℚ))
      exclamationCount := text.count '!'
      questionMarks := text.count '?'
      wordCount := countWordsAux false text
      hasDeadline := hasDeadlineMention text
      hasMoney := hasMoneyMention text }

/-- A priority factor (`PriorityFactor`; the informational `description`
string is omitted). -/
structure Factor where
  name : String
  weight : ℤ
  deriving DecidableEq, Repr

/-- A custom priority rule as a JSON dictionary
(`rule.get(key, default)` reads the optional fields). -/
structure CustomRule where
  ruleType : Option String
  name : Option String
  keywords : List String
  field : Option String
  value : Option String
  weight : Option ℤ
  deriving DecidableEq, Repr

/-- `PriorityScorer._apply_custom_rules`. -/
def applyCustomRules (rules : List CustomRule) (text : List Char)
    (metadata : List (String × String)) : List Factor :=
  rules.flatMap fun rule =>
    if rule.ruleType = some "keyword" then
      if rule.keywords.any (fun kw => isSub (lowerS kw.data) (lowerS text))
      then [{ name := rule.name.getD "custom_keyword",
              weight := rule.weight.getD 1 }]
      else []
    else if rule.ruleType = some "customer_field" then
      if rule.field.bind (fun f => metadata.lookup f) = rule.value
      then [{ name := rule.name.getD "custom_field",
              weight := rule.weight.getD 1 }]
      else []
    else []

/-- Result of `PriorityScorer.calculate`. -/
structure PriorityResult where
  score : ℤ
  level : String
  factors : List String
  factorDetails : List Factor
  baseScore : ℤ
  totalAdjustment : ℤ
  patterns : TextPatterns
  deriving DecidableEq, Repr

/-- Step 3 of `calculate`: the sentiment-impact factor. -/
def sentimentFactors (sentiment : Option String) : List Factor :=
  match sentiment with
  | some s =>
    if s = "negative" || s = "angry" then
      [{ name := "sentiment_" ++ s, weight := if s = "angry" then 2 else 1 }]
    else []
  | none => []

/-- Step 4 of `calculate`: the high-anger factor. -/
def angerFactors (angerLevel : Option ℚ) : List Factor :=
  match angerLevel with
  | some a => if a ≥ 7 / 10 then [{ name := "high_anger", weight := 1 }]
              else []
  | none => []

/-- The `TIER_BOOSTS.get(customer_tier.lower(), 0)` lookup. -/
def tierBoostOf (customerTier : String) : ℤ :=
  (TIER_BOOSTS.lookup (String.mk (lowerS customerTier.data))).getD 0

/-- Step 5 of `calculate`: the customer-tier factor (only recorded for a
non-zero boost). -/
def tierFactors (customerTier : String) : List Factor :=
  if tierBoostOf customerTier ≠ 0 then
    [{ name := "customer_tier_" ++ customerTier,
       weight := tierBoostOf customerTier }]
  else []

/-- Step 6 of `calculate`: the category-impact factor. -/
def categoryFactors (category : Option String) : List Factor :=
  match category with
  | some c =>
    if c = "" then []
    else
      match CRITICAL_CATEGORIES.lookup c with
      | some w => [Factor.mk ("critical_category_" ++ c) w]
      | none =>
        match LOW_PRIORITY_CATEGORIES.lookup c with
        | some w => [Factor.mk ("low_priority_category_" ++ c) w]
        | none => []
  | none => []

/-- The ordered factor list `calculate` accumulates (steps 1–8 of the
source function). -/
def buildFactors (customRules : List CustomRule) (text : List Char)
    (sentiment : Option String) (angerLevel : Option ℚ)
    (customerTier : String) (category : Option String)
    (metadata : List (String × String)) : List Factor :=
  let urgentFound := keywordHit URGENT_KEYWORDS text
  let highFound := keywordHit HIGH_KEYWORDS text
  let patterns := analyzeTextPatterns text
  (if urgentFound then [{ name := "urgent_keyword", weight := 2 }] else [])
  ++ (if highFound && !urgentFound then
        [{ name := "high_priority_keyword", weight := 1 }] else [])
  ++ sentimentFactors sentiment
  ++ angerFactors angerLevel
  ++ tierFactors customerTier
  ++ categoryFactors category
  ++ (if patterns.capsFrac > 1 / 2 then
        [{ name := "excessive_caps", weight := 1 }] else [])
  ++ (if patterns.exclamationCount ≥ 3 then
        [{ name := "multiple_exclamations", weight := 1 }] else [])
  ++ (if patterns.hasDeadline then
        [{ name := "deadline_mention", weight := 1 }] else [])
  ++ applyCustomRules customRules text metadata

/-- `PriorityScorer.calculate`.  `customRules` is the scorer's configured
rule list; `sentimentScore` is accepted but (as in the source) unused. -/
def calculate (customRules : List CustomRule) (text : List Char)
    (sentiment : Option String) (sentimentScore : Option ℚ)
    (angerLevel : Option ℚ) (customerTier : String)
    (category : Option String) (language : String)
    (metadata : List (String × String)) : PriorityResult :=
  let _ := sentimentScore
  let _ := language
  let factors := buildFactors customRules text sentiment angerLevel
    customerTier category metadata
  let totalWeight := (factors.map Factor.weight).sum
  let finalScore := max 1 (min 5 (3 + totalWeight))
  { score := finalScore
    level := levelOf finalScore
    factors := factors.map Factor.name
    factorDetails := factors
    baseScore := 3
    totalAdjustment := totalWeight
    patterns := analyzeTextPatterns text }

/-- `PriorityScorer.recalculate_with_override`. -/
def recalculateWithOverride (currentScore : ℤ)
    (overrideFactors : List String) (direction : String) : PriorityResult :=
  let adjustment : ℤ := if direction = "up" then 1 else -1
  let newScore := max 1 (min 5 (currentScore + adjustment))
  { score := newScore
    level := levelOf newScore
    factors := overrideFactors
    factorDetails := [{ name := "manual_override", weight := adjustment }]
    baseScore := currentScore
    totalAdjustment := adjustment
    patterns := analyzeTextPatterns [] }

end PriorityScorer

/-! ## Text processing (`src/utils/text_processing.py`)

`TextProcessor.clean_for_processing` and its helpers.  Regex substitutions
are implemented as explicit left-to-right scanners with exactly the
leftmost-match semantics of `re.sub`; `html.unescape` is modelled for the
standard named entities (`&amp;` `&lt;` `&gt;` `&quot;` `&#39;`), which is
faithful on text using only well-formed occurrences of those entities. -/

namespace TextProc

/-- Python `html.unescape`, restricted to the five standard named
entities.  As in CPython, the replacement text is not rescanned. -/
def unescape : List Char → List Char
  | [] => []
  | '&' :: 'a' :: 'm' :: 'p' :: ';' :: xs => '&' :: unescape xs
  | '&' :: 'l' :: 't' :: ';' :: xs => '<' :: unescape xs
  | '&' :: 'g' :: 't' :: ';' :: xs => '>' :: unescape xs
  | '&' :: 'q' :: 'u' :: 'o' :: 't' :: ';' :: xs => '"' :: unescape xs
  | '&' :: '#' :: '3' :: '9' :: ';' :: xs => '\'' :: unescape xs
  | c :: xs => c :: unescape xs

/-- The `</p>|</div>|</li>` alternatives of the block-element regex,
matched case-insensitively against the text following a `<`. -/
def matchTagClose (xs : List Char) : Option (List Char) :=
  if isPreCI "/p>".data xs then some (xs.drop 3)
  else if isPreCI "/div>".data xs then some (xs.drop 5)
  else if isPreCI "/li>".data xs then some (xs.drop 4)
  else none

/-- Match of `br\s*/?>` (or a closing-tag alternative) against the text
following a `<`.  After `br`, the regex `\s*/?>` deterministically
consumes the maximal whitespace run, an optional `/` and a `>`. -/
def matchBr (xs : List Char) : Option (List Char) :=
  match xs with
  | b :: r :: rest =>
    if lowerC b = 'b' && lowerC r = 'r' then
      match rest.dropWhile reWs with
      | '/' :: '>' :: u => some u
      | '>' :: u => some u
      | _ => matchTagClose xs
    else matchTagClose xs
  | _ => matchTagClose xs

/-- Fuelled scanner for
`re.sub(r"<br\s*/?>|</p>|</div>|</li>", "\n", text, flags=re.IGNORECASE)`;
fuel bounded by the text length is always sufficient. -/
def rbAux : ℕ → List Char → List Char
  | 0, l => l
  | _ + 1, [] => []
  | fuel + 1, '<' :: xs =>
    (match matchBr xs with
     | some r => '\n' :: rbAux fuel r
     | none => '<' :: rbAux fuel xs)
  | fuel + 1, c :: xs => c :: rbAux fuel xs

/-- First substitution of `TextProcessor.remove_html`. -/
def replaceBreaks (l : List Char) : List Char := rbAux l.length l

/-- Fuelled scanner for `HTML_TAG_PATTERN.sub("", text)` with
`HTML_TAG_PATTERN = re.compile(r"<[^>]+>")`: a `<`, at least one
non-`>` character, then the first following `>`. -/
def rtAux : ℕ → List Char → List Char
  | 0, l => l
  | _ + 1, [] => []
  | fuel + 1, '<' :: xs =>
    (let a := xs.takeWhile (· ≠ '>')
     if a.isEmpty then '<' :: rtAux fuel xs
     else
       match xs.drop a.length with
       | '>' :: rest => rtAux fuel rest
       | _ => '<' :: rtAux fuel xs)
  | fuel + 1, c :: xs => c :: rtAux fuel xs

/-- Second substitution of `TextProcessor.remove_html`. -/
def removeTags (l : List Char) : List Char := rtAux l.length l

/-- `TextProcessor.remove_html`. -/
def removeHtml (l : List Char) : List Char :=
  unescape (removeTags (replaceBreaks l))

/-- `TextProcessor.TURKISH_CHARS`. -/
def TURKISH_CHARS : List (Char × Char) :=
  [('ı', 'i'), ('İ', 'I'), ('ğ', 'g'), ('Ğ', 'G'), ('ü', 'u'), ('Ü', 'U'),
   ('ş', 's'), ('Ş', 'S'), ('ö', 'o'), ('Ö', 'O'), ('ç', 'c'), ('Ç', 'C')]

/-- `TextProcessor.normalize_turkish`.  Each `str.replace` of a single
character is a per-character map. -/
def normalizeTurkish (preserveTurkish : Bool) (l : List Char) : List Char :=
  if preserveTurkish then l
  else TURKISH_CHARS.foldl
    (fun t p => t.map fun c => if c = p.1 then p.2 else c) l

/-- `text.replace("\t", " ")`. -/
def replaceTabs (l : List Char) : List Char :=
  l.map fun c => if c = '\t' then ' ' else c

/-- `text.replace("\r\n", "\n").replace("\r", "\n")`. -/
def replaceCR : List Char → List Char
  | [] => []
  | '\x0d' :: '\n' :: xs => '\n' :: replaceCR xs
  | '\x0d' :: xs => '\n' :: replaceCR xs
  | c :: xs => c :: replaceCR xs

/-- `re.sub(r"\n{3,}", "\n\n", text)`: keep at most the first two
newlines of every newline run.  The accumulator counts the newlines
already kept in the current run (saturating at two). -/
def collapseNlAux : ℕ → List Char → List Char
  | _, [] => []
  | run, c :: xs =>
    if c = '\n' then
      if run ≥ 2 then collapseNlAux run xs
      else '\n' :: collapseNlAux (run + 1) xs
    else c :: collapseNlAux 0 xs

/-- `re.sub(r" {2,}", " ", text)`: keep only the first space of every
space run.  The accumulator records whether the previous character kept
was a space. -/
def collapseSpacesAux : Bool → List Char → List Char
  | _, [] => []
  | prev, c :: xs =>
    if c = ' ' then
      if prev then collapseSpacesAux true xs
      else ' ' :: collapseSpacesAux true xs
    else c :: collapseSpacesAux false xs

/-- `text.split("\n")`. -/
def splitNl : List Char → List (List Char)
  | [] => [[]]
  | '\n' :: xs => [] :: splitNl xs
  | c :: xs =>
    match splitNl xs with
    | l :: ls => (c :: l) :: ls
    | [] => [[c]]

/-- `"\n".join(lines)`. -/
def joinNl : List (List Char) → List Char
  | [] => []
  | [l] => l
  | l :: ls => l ++ '\n' :: joinNl ls

/-- `TextProcessor.normalize_whitespace`. -/
def normalizeWhitespace (l : List Char) : List Char :=
  let a := replaceTabs l
  let b := replaceCR a
  let c := collapseNlAux 0 b
  let d := collapseSpacesAux false c
  let e := joinNl ((splitNl d).map pyStrip)
  pyStrip e

/-- Generic truncating scanner: cut the text at the leftmost position
where `p` holds of the remaining suffix.  This is
`re.sub(pattern, "", text, flags=re.IGNORECASE | re.DOTALL)` for a
pattern of the form `prefix.*`: with `re.DOTALL` the match extends to the
end of the string, so the substitution truncates at the leftmost match of
the prefix. -/
def cutWhen (p : List Char → Bool) : List Char → List Char
  | [] => []
  | c :: xs => if p (c :: xs) then [] else c :: cutWhen p xs

/-- `\s*\n` after a `--`: whitespace characters up to a newline. -/
def wsThenNl : List Char → Bool
  | [] => false
  | c :: xs => if c = '\n' then true else if reWs c then wsThenNl xs else false

/-- Start-of-match test for the signature pattern `--\s*\n.*`. -/
def sigDashes (l : List Char) : Bool :=
  match l with
  | '-' :: '-' :: r => wsThenNl r
  | _ => false

/-- Start-of-match test for `Sent from my (?:iPhone|iPad|Android).*`. -/
def sigSentFrom (l : List Char) : Bool :=
  isPreCI "sent from my iphone".data l ||
  isPreCI "sent from my ipad".data l ||
  isPreCI "sent from my android".data l

/-- The start-of-match tests of the eight `SIGNATURE_PATTERNS`, in the
order of the source list. -/
def sigPreds : List (List Char → Bool) :=
  [sigDashes,
   isPreCI "best regard".data,
   isPreCI "kind regard".data,
   isPreCI "regard".data,
   isPreCI "thank".data,
   isPreCI "saygılarımla".data,
   isPreCI "iyi günler".data,
   sigSentFrom]

/-- `TextProcessor.remove_signatures`: the eight `SIGNATURE_PATTERNS`
applied in order, then `str.strip`.  Patterns of the form
`Literal s? ,? .*` match exactly where their mandatory literal prefix
matches (the optional parts always succeed), so each substitution
truncates at the leftmost occurrence of that literal. -/
def removeSignatures (l : List Char) : List Char :=
  pyStrip (sigPreds.foldl (fun t p => cutWhen p t) l)

/-- Unicode NFC normalization (`unicodedata.normalize("NFC", text)`),
the identity on NFC-normal text — in particular on all ASCII text, to
which this development restricts its idempotence statements. -/
def normalizeUnicode (l : List Char) : List Char := l

/-- `TextProcessor.clean_for_processing` with `mask_pii = False` (its
default; PII masking is outside the scope of the claims below) and
`preserve_turkish = True` (its default). -/
def cleanForProcessing (removeHtmlFlag removeSignaturesFlag : Bool)
    (l : List Char) : List Char :=
  if l = [] then []
  else
    let t := normalizeUnicode l
    let t := if removeHtmlFlag then removeHtml t else t
    let t := normalizeTurkish true t
    let t := normalizeWhitespace t
    let t := if removeSignaturesFlag then removeSignatures t else t
    pyStrip t

/-- The cleaning operation at its default option set — the form used by
every caller in the repository. -/
def clean (l : List Char) : List Char := cleanForProcessing true true l

/-- `p` is monotone under suffix extension: once `p` holds of a list it
holds of every extension of that list on the right.  All the
start-of-match tests above have this property (a match found at a
position survives appending more text). -/
def MonoSuf (p : List Char → Bool) : Prop :=
  ∀ s t, p s = true → p (s ++ t) = true

/-- `p` holds at no position of `l`: no suffix of `l` satisfies `p`. -/
def NoOcc (p : List Char → Bool) (l : List Char) : Prop :=
  ∀ n, p (l.drop n) = false

/-- A character of the plain fragment: ASCII, not `&`, not `<`, and the
only whitespace allowed is the plain space.  On text made of such
characters, HTML unescaping and tag stripping are the identity and
whitespace normalization reduces to space collapsing plus stripping. -/
def PlainChar (c : Char) : Prop :=
  c ≠ '&' ∧ c ≠ '<' ∧ (pyWs c = true → c = ' ') ∧ c.toNat < 128

/-- Every character of `l` is plain. -/
def PlainText (l : List Char) : Prop := ∀ c ∈ l, PlainChar c

instance : DecidablePred PlainChar := fun c => by
  unfold PlainChar; infer_instance

instance (l : List Char) : Decidable (PlainText l) := by
  unfold PlainText; infer_instance

end TextProc

/-! ## Routing rules (`src/models/rule.py`) -/

namespace Rules

/-- `RuleType`. -/
inductive RuleType where
  | category | keyword | sentiment | priority | customer | time | language
  | custom
  deriving DecidableEq, Repr

/-- `RuleAction`. -/
inductive RuleAction where
  | assignAgent | assignTeam | setPriority | addTag | escalate | autoReply
  | notify | skipQueue
  deriving DecidableEq, Repr

/-- The `conditions` JSON object; absent keys are `none` / `[]`
(`conditions.get(key, default)` supplies the defaults). -/
structure Conditions where
  categories : List String := []
  keywords : List String := []
  matchMode : Option String := none
  sentiments : List String := []
  minPriority : Option ℤ := none
  maxPriority : Option ℤ := none
  tiers : List String := []
  languages : List String := []
  expression : Option String := none
  deriving DecidableEq, Repr

/-- The empty `conditions` object `{}`. -/
def Conditions.emptyC : Conditions := {}

/-- Ticket attributes a rule is evaluated against (`ticket_data`). -/
structure TicketData where
  category : Option String := none
  priority : Option ℤ := none
  language : Option String := none
  customerTier : Option String := none
  source : Option String := none
  content : List Char := []
  sentiment : Option String := none
  subject : List Char := []
  deriving DecidableEq, Repr

/-- The wall clock as seen by `datetime.utcnow()`: a comparable instant,
the weekday (`0 = Monday`) and `strftime("%H:%M")`. -/
structure Clock where
  ts : ℤ
  weekday : ℕ
  hhmm : String
  deriving DecidableEq, Repr

/-- A `RoutingRule` row; `action_params` is split into its used keys
(`agent_id`, `team`, `to_team`, `reason`); UUIDs are modelled as `ℕ`. -/
structure RoutingRule where
  name : String
  ruleType : RuleType
  conditions : Conditions
  action : RuleAction
  agentIdParam : Option ℕ := none
  teamParam : Option String := none
  toTeamParam : Option String := none
  reasonParam : Option String := none
  priority : ℤ := 0
  isActive : Bool := true
  isExclusive : Bool := true
  appliesToSources : Option (List String) := none
  appliesToCategories : Option (List String) := none
  activeFrom : Option ℤ := none
  activeUntil : Option ℤ := none
  activeHoursStart : Option String := none
  activeHoursEnd : Option String := none
  activeDays : Option (List ℕ) := none
  deriving DecidableEq, Repr

/-- `RoutingRule._check_time_restrictions`. -/
def checkTimeRestrictions (now : Clock) (r : RoutingRule) : Bool :=
  (match r.activeFrom with | some t0 => !(now.ts < t0) | none => true) &&
  (match r.activeUntil with | some t1 => !(now.ts > t1) | none => true) &&
  (match r.activeDays with
   | some days => days.contains now.weekday
   | none => true) &&
  (if optStrTruthy r.activeHoursStart && optStrTruthy r.activeHoursEnd then
     strLe (r.activeHoursStart.getD "") now.hhmm &&
       strLe now.hhmm (r.activeHoursEnd.getD "")
   else true)

/-- `RoutingRule._evaluate_conditions`. -/
def evaluateConditions (r : RoutingRule) (td : TicketData) : Bool :=
  match r.ruleType with
  | .category =>
    (match td.category with
     | some c => r.conditions.categories.contains c
     | none => false)
  | .keyword =>
    let mode := r.conditions.matchMode.getD "any"
    let haystack := lowerS (td.content ++ ' ' :: td.subject)
    if mode = "any" then
      r.conditions.keywords.any fun kw => isSub (lowerS kw.data) haystack
    else
      r.conditions.keywords.all fun kw => isSub (lowerS kw.data) haystack
  | .sentiment =>
    (match td.sentiment with
     | some s => r.conditions.sentiments.contains s
     | none => false)
  | .priority =>
    let minP := r.conditions.minPriority.getD 1
    let maxP := r.conditions.maxPriority.getD 5
    let p := td.priority.getD 3
    decide (minP ≤ p) && decide (p ≤ maxP)
  | .customer =>
    (match td.customerTier with
     | some t => r.conditions.tiers.contains t
     | none => false)
  | .language =>
    (match td.language with
     | some lg => r.conditions.languages.contains lg
     | none => false)
  | .time => false
  | .custom => false

/-- `RoutingRule.matches`.  A scope list rejects only a truthy source /
category that is not in the list. -/
def ruleMatches (now : Clock) (r : RoutingRule) (td : TicketData) : Bool :=
  r.isActive &&
  checkTimeRestrictions now r &&
  (match r.appliesToSources with
   | some srcs =>
     if srcs.isEmpty then true
     else
       match td.source with
       | some s => if s = "" then true else srcs.contains s
       | none => true
   | none => true) &&
  (match r.appliesToCategories with
   | some cats =>
     if cats.isEmpty then true
     else
       match td.category with
       | some c => if c = "" then true else cats.contains c
       | none => true
   | none => true) &&
  evaluateConditions r td

end Rules

/-! ## Router (`src/services/router.py`) -/

namespace Router

/-- `AgentStatus`. -/
inductive AgentStatus where
  | online | offline | busy | away | onBreak
  deriving DecidableEq, Repr

/-- An `Agent` row (the fields the router and the load-accounting
operations read; UUIDs are modelled as `ℕ`, floats as `ℚ`). -/
structure Agent where
  id : ℕ
  name : String := ""
  team : Option String := none
  skills : List String := []
  languages : List String := []
  experienceLevel : ℤ := 1
  specializations : List (String × ℚ) := []
  currentLoad : ℤ := 0
  maxLoad : ℤ := 10
  status : AgentStatus := .offline
  isActive : Bool := true
  workHoursStart : Option String := none
  workHoursEnd : Option String := none
  workingDays : Option (List ℕ) := none
  csat : Option ℚ := none
  qualityScore : Option ℚ := none
  canHandleVip : Bool := false
  canHandleCritical : Bool := false
  deriving DecidableEq, Repr

/-- The `where` clause of `TicketRouter._get_available_agents`. -/
def availableFilter (requireVip requireCritical : Bool) (a : Agent) : Bool :=
  a.isActive && a.status = .online && a.currentLoad < a.maxLoad &&
  (!requireVip || a.canHandleVip) && (!requireCritical || a.canHandleCritical)

/-- `TicketRouter._is_within_working_hours`. -/
def withinWorkingHours (now : Rules.Clock) (a : Agent) : Bool :=
  (match a.workingDays with
   | some days => days.isEmpty || days.contains now.weekday
   | none => true) &&
  (if optStrTruthy a.workHoursStart && optStrTruthy a.workHoursEnd then
     strLe (a.workHoursStart.getD "") now.hhmm &&
       strLe now.hhmm (a.workHoursEnd.getD "")
   else true)

/-- `RoutingCandidate`. -/
structure RoutingCandidate where
  agent : Agent
  score : ℚ
  reasons : List String
  deriving DecidableEq, Repr

/-- `TicketRouter._calculate_agent_score`.  The numeric suffixes the
source interpolates into reason strings (`expertise:0.50`,
`experience:3`, `load_ratio:0.40`) are elided: no consumer inspects
them, only the tag prefixes. -/
def calculateAgentScore (a : Agent) (category : Option String)
    (language : String) (priority : ℤ) (customerTier : String) :
    RoutingCandidate :=
  let cat := category.getD ""
  let catTruthy := match category with | some c => c ≠ "" | none => false
  let skillHit := catTruthy && !a.skills.isEmpty && a.skills.contains cat
  let expertiseHit := skillHit && !a.specializations.isEmpty
  let expertisePart : ℚ :=
    if expertiseHit then ((a.specializations.lookup cat).getD (1 / 2)) * 10
    else 0
  let langHit := language ≠ "" && !a.languages.isEmpty &&
    a.languages.contains language
  let expPart : ℚ := if priority ≥ 4 then (a.experienceLevel : ℚ) * 5 else 0
  let vipHit := (customerTier = "vip" || customerTier = "enterprise") &&
    a.canHandleVip
  let critHit := priority = 5 && a.canHandleCritical
  let loadPart : ℚ :=
    if a.maxLoad > 0 then ((a.currentLoad : ℚ) / (a.maxLoad : ℚ)) * 20 else 0
  let csatPart : ℚ :=
    match a.csat with
    | some c => if c ≠ 0 then (c - 3) * 5 else 0
    | none => 0
  let qualPart : ℚ :=
    match a.qualityScore with
    | some q => if q ≠ 0 then (q / 100) * 10 else 0
    | none => 0
  let score : ℚ := 50 + (if skillHit then 30 else 0) + expertisePart +
    (if langHit then 15 else 0) + expPart + (if vipHit then 20 else 0) +
    (if critHit then 20 else 0) - loadPart + csatPart + qualPart
  let reasons : List String :=
    (if skillHit then ["skill_match:" ++ cat] else [])
    ++ (if expertiseHit then ["expertise"] else [])
    ++ (if langHit then ["language_match:" ++ language] else [])
    ++ (if priority ≥ 4 then ["experience"] else [])
    ++ (if vipHit then ["vip_handler"] else [])
    ++ (if critHit then ["critical_handler"] else [])
    ++ (if a.maxLoad > 0 then ["load_ratio"] else [])
  { agent := a, score := score, reasons := reasons }

/-- Stable insertion for a descending sort: an earlier candidate stays
in front of later candidates with the same score, exactly as Python's
stable `list.sort(key=..., reverse=True)`. -/
def insertDesc (c : RoutingCandidate) :
    List RoutingCandidate → List RoutingCandidate
  | [] => [c]
  | d :: ds => if d.score > c.score then d :: insertDesc c ds else c :: d :: ds

/-- `candidates.sort(key=lambda c: c.score, reverse=True)`. -/
def sortDesc : List RoutingCandidate → List RoutingCandidate
  | [] => []
  | c :: cs => insertDesc c (sortDesc cs)

/-- Stable insertion of a rule into a priority-descending rule list. -/
def insertRuleDesc (r : Rules.RoutingRule) :
    List Rules.RoutingRule → List Rules.RoutingRule
  | [] => [r]
  | s :: ss =>
    if s.priority > r.priority then s :: insertRuleDesc r ss else r :: s :: ss

/-- `TicketRouter._get_routing_rules`: active rules ordered by `priority`
descending (ties keep list order; the SQL backend leaves tie order
unspecified). -/
def getRoutingRules (rulesDb : List Rules.RoutingRule) :
    List Rules.RoutingRule :=
  (rulesDb.filter (·.isActive)).foldr insertRuleDesc []

/-- Python `min(agents, key=lambda a: a.current_load)`: the first
minimal-load agent. -/
def minByLoad : List Agent → Option Agent
  | [] => none
  | a :: rest =>
    some (rest.foldl (fun b x => if x.currentLoad < b.currentLoad then x else b) a)

/-- An entry of the `alternatives` list. -/
structure Alternative where
  agentId : ℕ
  agentName : String
  score : ℚ
  reasons : List String
  deriving DecidableEq, Repr

/-- A routing decision. -/
structure RouteResult where
  agentId : Option ℕ := none
  agentName : Option String := none
  team : Option String := none
  reason : String
  confidence : ℚ
  score : Option ℚ := none
  scoreBreakdown : List String := []
  alternatives : List Alternative := []
  ruleName : Option String := none
  escalationReason : Option String := none
  message : Option String := none
  previousAgentId : Option ℕ := none
  reassignmentReason : Option String := none
  deriving DecidableEq, Repr

/-- `TicketRouter._apply_routing_rules`: first matching rule with a
terminating action wins; `assign_agent` with an unknown agent,
`assign_team` with an empty team and non-terminating actions fall
through to the next rule. -/
def applyRoutingRules (now : Rules.Clock) (td : Rules.TicketData)
    (agents : List Agent) : List Rules.RoutingRule → Option RouteResult
  | [] => none
  | r :: rs =>
    if Rules.ruleMatches now r td then
      match r.action with
      | .assignAgent =>
        (match agents.find? (fun a => some a.id = r.agentIdParam) with
         | some a =>
           some { agentId := some a.id, agentName := some a.name,
                  team := a.team, reason := "rule_based", confidence := 1,
                  ruleName := some r.name }
         | none => applyRoutingRules now td agents rs)
      | .assignTeam =>
        (match minByLoad (agents.filter (fun a => a.team = r.teamParam)) with
         | some best =>
           some { agentId := some best.id, agentName := some best.name,
                  team := best.team, reason := "rule_based",
                  confidence := 9 / 10, ruleName := some r.name }
         | none => applyRoutingRules now td agents rs)
      | .escalate =>
        some { agentId := none, agentName := none, team := r.toTeamParam,
               reason := "escalation", confidence := 1,
               escalationReason := r.reasonParam, ruleName := some r.name }
      | _ => applyRoutingRules now td agents rs
    else applyRoutingRules now td agents rs

/-- The decision returned when no agent is available (first return). -/
def noAgentsResult : RouteResult :=
  { agentId := none, agentName := none, team := none,
    reason := "no_available_agents", confidence := 0,
    message := some "No agents currently available" }

/-- The decision returned when no agent survives the working-hours
fallback (second return, without `message`). -/
def noAgentsResultLate : RouteResult :=
  { agentId := none, agentName := none, team := none,
    reason := "no_available_agents", confidence := 0 }

/-- The unrestricted availability query
(`_get_available_agents()` with no requirements). -/
def basePool (agentsDb : List Agent) : List Agent :=
  agentsDb.filter (availableFilter false false)

/-- The candidate pool after the VIP/critical query and its retry without
those gates. -/
def stage1Pool (agentsDb : List Agent) (requireVip requireCritical : Bool) :
    List Agent :=
  let a0 := agentsDb.filter (availableFilter requireVip requireCritical)
  if a0.isEmpty then basePool agentsDb else a0

/-- The candidate pool after the working-hours filter and its fallback to
any available agent. -/
def finalPool (agentsDb : List Agent) (now : Rules.Clock)
    (requireVip requireCritical : Bool) : List Agent :=
  let a2 := (stage1Pool agentsDb requireVip requireCritical).filter
    (withinWorkingHours now)
  if a2.isEmpty then basePool agentsDb else a2

/-- `TicketRouter.route`. -/
def route (agentsDb : List Agent) (rulesDb : List Rules.RoutingRule)
    (now : Rules.Clock) (category : Option String) (priority : ℤ)
    (language : String) (customerTier : String) (source : Option String)
    (content : List Char) (sentiment : Option String)
    (subject : List Char) : RouteResult :=
  let td : Rules.TicketData :=
    { category := category, priority := some priority,
      language := some language, customerTier := some customerTier,
      source := source, content := content, sentiment := sentiment,
      subject := subject }
  let requireVip := customerTier = "vip" || customerTier = "enterprise"
  let requireCritical := priority = 5
  if (stage1Pool agentsDb requireVip requireCritical).isEmpty then
    noAgentsResult
  else
    let agents3 := finalPool agentsDb now requireVip requireCritical
    if agents3.isEmpty then noAgentsResultLate
    else
      match applyRoutingRules now td agents3 (getRoutingRules rulesDb) with
      | some res => res
      | none =>
        let cands := agents3.map fun a =>
          calculateAgentScore a category language priority customerTier
        match sortDesc cands with
        | [] => noAgentsResultLate
        | best :: rest =>
          let reason :=
            if best.reasons.any (fun s => isSub "skill_match".data s.data)
            then "skill_match"
            else if best.reasons.contains "vip_handler" then "vip_handler"
            else if best.reasons.contains "critical_handler" then
              "critical_handler"
            else if best.reasons.any
              (fun s => isSub "language_match".data s.data)
            then "language_match"
            else "load_balance"
          let confidence : ℚ :=
            match rest with
            | [] => 95 / 100
            | second :: _ =>
              min (1 / 2 + (best.score - second.score) / 100) (99 / 100)
          let alternatives := (rest.take 3).map fun c =>
            Alternative.mk c.agent.id c.agent.name c.score c.reasons
          { agentId := some best.agent.id,
            agentName := some best.agent.name,
            team := best.agent.team, reason := reason,
            confidence := qRound 3 confidence,
            score := some (qRound 2 best.score),
            scoreBreakdown := best.reasons,
            alternatives := alternatives }

/-- First alternative whose agent is not excluded (the `for alt / break`
loop of `TicketRouter.reassign`). -/
def firstNonExcluded (alts : List Alternative) (exclude : List ℕ) :
    Option Alternative :=
  alts.find? fun alt => !(exclude.contains alt.agentId)

/-- The exclusion set built by `reassign`
(`exclude = set(exclude_agents or []); exclude.add(current_agent_id)`). -/
def combinedExclude (currentAgentId : Option ℕ) (excludeAgents : List ℕ) :
    List ℕ :=
  match currentAgentId with
  | some i => i :: excludeAgents
  | none => excludeAgents

/-- `TicketRouter.reassign`: route afresh (the router itself takes no
exclusions), then substitute the first non-excluded alternative if the
best agent is excluded; if every alternative is excluded too, the
decision is returned unchanged, still naming the excluded agent. -/
def reassign (agentsDb : List Agent) (rulesDb : List Rules.RoutingRule)
    (now : Rules.Clock) (currentAgentId : Option ℕ)
    (excludeAgents : List ℕ) (reassignReason : Option String)
    (category : Option String) (priority : ℤ) (language : String)
    (customerTier : String) (source : Option String) (content : List Char)
    (sentiment : Option String) (subject : List Char) : RouteResult :=
  let exclude := combinedExclude currentAgentId excludeAgents
  let result := route agentsDb rulesDb now category priority language
    customerTier source content sentiment subject
  match result.agentId with
  | some b =>
    if exclude.contains b then
      match firstNonExcluded result.alternatives exclude with
      | some alt =>
        { result with agentId := some alt.agentId,
                      agentName := some alt.agentName,
                      reason := "reassignment",
                      previousAgentId := currentAgentId,
                      reassignmentReason := reassignReason }
      | none => result
    else result
  | none => result

end Router

/-! ## Ticket pipeline and load accounting
(`src/api/tickets.py`, `src/workers/tasks.py`) -/

namespace Pipeline

/-- A `Ticket` row (the fields the pipeline and the load-accounting
endpoints touch). -/
structure Ticket where
  content : List Char
  subject : List Char := []
  language : String := "en"
  customerTier : String := "standard"
  source : Option String := some "api"
  category : Option String := none
  categoryConfidence : Option ℚ := none
  sentiment : Option String := none
  sentimentScore : Option ℚ := none
  priority : ℤ := 3
  priorityLevel : Option String := none
  priorityFactors : List String := []
  assignedAgentId : Option ℕ := none
  assignmentReason : Option String := none
  assignmentConfidence : Option ℚ := none
  previousAgentId : Option ℕ := none
  isProcessed : Bool := false
  status : String := "new"
  suggestedResponses : List String := []
  deriving DecidableEq, Repr

/-- The persistent state a pipeline run reads and writes: the ticket row
and the agent table. -/
structure SysState where
  ticket : Ticket
  agents : List Router.Agent
  deriving DecidableEq, Repr

/-- Outcomes of every external dependency of one pipeline run. -/
structure PipelineEnv where
  clsCacheEnabled : Bool := false
  clsCached : Option Classifier.ClsResult := none
  clsExt : Except Unit Classifier.RawCls := .error ()
  sentHasKey : Bool := false
  sentUseHf : Bool := false
  sentExt : Except Unit Sentiment.RawSentiment := .error ()
  sentHf : Except Unit Sentiment.RawHf := .error ()
  kb : Except Unit (List String) := .error ()
  rules : List Rules.RoutingRule := []
  now : Rules.Clock
  deriving Repr

/-- The load-increment commit of `process_ticket_pipeline`
(`agent = await db.get(Agent, agent_id); agent.current_load += 1`):
increment the fetched agent's load, with no capacity check. -/
def commitAssignment (agents : List Router.Agent) :
    Option ℕ → List Router.Agent
  | none => agents
  | some i =>
    agents.map fun a =>
      if a.id = i then { a with currentLoad := a.currentLoad + 1 } else a

/-- `process_ticket_pipeline` (`src/api/tickets.py`): classify, analyze
sentiment, score priority, route, commit the assignment, attach
suggestions, then set `is_processed`/`status`.  There is no
`is_processed` guard anywhere in the function. -/
def processTicketPipeline (env : PipelineEnv) (st : SysState) : SysState :=
  let t0 := st.ticket
  let classification :=
    (Classifier.classify env.clsCacheEnabled env.clsCached env.clsExt
      t0.content true).1
  let t1 := { t0 with category := some classification.primaryCategory,
                      categoryConfidence := classification.confidence }
  let sres := Sentiment.analyze env.sentHasKey env.sentUseHf env.sentExt
    env.sentHf t1.content t1.language "auto"
  let t2 := { t1 with sentiment := some sres.sentiment,
                      sentimentScore := sres.score }
  let pr := PriorityScorer.calculate [] t2.content t2.sentiment
    t2.sentimentScore sres.angerLevel (pyOrStr t2.customerTier "standard")
    t2.category t2.language []
  let t3 := { t2 with priority := pr.score,
                      priorityLevel := some pr.level,
                      priorityFactors := pr.factors }
  let routing := Router.route st.agents env.rules env.now t3.category
    t3.priority t3.language t3.customerTier none t3.content t3.sentiment []
  let t4 :=
    match routing.agentId with
    | some _ =>
      { t3 with assignedAgentId := routing.agentId,
                assignmentReason := some routing.reason,
                assignmentConfidence := some routing.confidence }
    | none => t3
  let agents2 := commitAssignment st.agents routing.agentId
  let t5 :=
    match env.kb with
    | .ok sugg => { t4 with suggestedResponses := sugg }
    | .error _ => t4
  let t6 := { t5 with isProcessed := true, status := "open" }
  { ticket := t6, agents := agents2 }

/-- `process_ticket_task` (`src/workers/tasks.py`): the Celery pipeline.
It classifies, analyzes sentiment, scores priority and attaches
suggestions but performs no routing, so it never touches any agent row. -/
def processTicketTask (env : PipelineEnv) (st : SysState) : SysState :=
  let t0 := st.ticket
  let lang := pyOrStr t0.language "tr"
  let classification :=
    (Classifier.classify env.clsCacheEnabled env.clsCached env.clsExt
      t0.content true).1
  let t1 := { t0 with category := some classification.primaryCategory,
                      categoryConfidence := classification.confidence }
  let sres := Sentiment.analyze env.sentHasKey env.sentUseHf env.sentExt
    env.sentHf t1.content lang "auto"
  let t2 := { t1 with sentiment := some sres.sentiment,
                      sentimentScore := sres.score }
  let pr := PriorityScorer.calculate [] t2.content t2.sentiment none
    sres.angerLevel (pyOrStr t2.customerTier "standard") t2.category lang []
  let t3 := { t2 with priority := pr.score,
                      priorityLevel := some pr.level,
                      priorityFactors := pr.factors }
  let t4 :=
    match env.kb with
    | .ok sugg => { t3 with suggestedResponses := sugg }
    | .error _ => t3
  let t5 := { t4 with isProcessed := true, status := "open" }
  { ticket := t5, agents := st.agents }

/-- `reassign_ticket` (`POST /tickets/.../reassign`): decrement the
previous agent's load (only if positive), then increment the new agent's
load unconditionally — there is no `current_load < max_load` check.
`.error ()` models the 404 for an unknown new agent. -/
def reassignTicketEndpoint (st : SysState) (newAgentId : Option ℕ) :
    Except Unit SysState :=
  let t := st.ticket
  let prev := t.assignedAgentId
  let agents1 :=
    match prev with
    | some p =>
      st.agents.map fun a =>
        if a.id = p && a.currentLoad > 0 then
          { a with currentLoad := a.currentLoad - 1 }
        else a
    | none => st.agents
  match newAgentId with
  | some nid =>
    if st.agents.any (fun a => a.id = nid) then
      .ok { ticket := { t with assignedAgentId := some nid,
                               assignmentReason := some "manual_reassignment",
                               previousAgentId := prev },
            agents := agents1.map fun a =>
              if a.id = nid then { a with currentLoad := a.currentLoad + 1 }
              else a }
    else .error ()
  | none =>
    .ok { ticket := { t with assignedAgentId := none,
                             assignmentReason := some "unassigned",
                             previousAgentId := prev },
          agents := agents1 }

end Pipeline

/-! ## Specification-side definitions

Definitions written from the specification's words, for comparison with
the embedded source. -/

namespace PriorityScorer

/-- The weight one custom rule contributes under §4.4's `custom_*` row:
its configured weight when its trigger fires, else nothing. -/
def customRuleWeight (text : List Char) (metadata : List (String × String))
    (rule : CustomRule) : ℤ :=
  if rule.ruleType = some "keyword" then
    if rule.keywords.any (fun kw => isSub (lowerS kw.data) (lowerS text))
    then rule.weight.getD 1 else 0
  else if rule.ruleType = some "customer_field" then
    if rule.field.bind (fun f => metadata.lookup f) = rule.value
    then rule.weight.getD 1 else 0
  else 0

/-- The sum of triggered factor weights as §4.4's table defines them:
urgent_keyword +2; high_priority_keyword +1 only without an urgent hit;
sentiment_negative +1; sentiment_angry +2; high_anger +1 when
`anger_level ≥ 0.7`; the customer-tier and category table values;
excessive_caps, multiple_exclamations and deadline_mention +1 each; and
the configured custom-rule weights. -/
def specWeightSum (customRules : List CustomRule) (text : List Char)
    (sentiment : Option String) (angerLevel : Option ℚ)
    (customerTier : String) (category : Option String)
    (metadata : List (String × String)) : ℤ :=
  (if keywordHit URGENT_KEYWORDS text then 2 else 0)
  + (if keywordHit HIGH_KEYWORDS text && !keywordHit URGENT_KEYWORDS text
     then 1 else 0)
  + (if sentiment = some "negative" then 1 else 0)
  + (if sentiment = some "angry" then 2 else 0)
  + (match angerLevel with
     | some a => if a ≥ 7 / 10 then 1 else 0
     | none => 0)
  + tierBoostOf customerTier
  + (match category with
     | some c =>
       if c = "" then 0
       else
         match CRITICAL_CATEGORIES.lookup c with
         | some w => w
         | none => (LOW_PRIORITY_CATEGORIES.lookup c).getD 0
     | none => 0)
  + (if (analyzeTextPatterns text).capsFrac > 1 / 2 then 1 else 0)
  + (if (analyzeTextPatterns text).exclamationCount ≥ 3 then 1 else 0)
  + (if (analyzeTextPatterns text).hasDeadline then 1 else 0)
  + (customRules.map (customRuleWeight text metadata)).sum

end PriorityScorer

namespace Rules

/-- A rule of the given type with the given conditions and no time or
scope restrictions (all the other columns at their defaults). -/
def mkRule (ty : RuleType) (c : Conditions) : RoutingRule :=
  { name := "r", ruleType := ty, conditions := c, action := .notify }

end Rules

/-! ## Concrete instances used by counterexamples and witnesses -/

namespace Ex

/-- A fixed wall clock (a Wednesday at noon). -/
def clock : Rules.Clock := { ts := 0, weekday := 2, hhmm := "12:00" }

/-- A pipeline environment in which every external call fails (all
enrichment falls back to the rule-based paths). -/
def offlineEnv : Pipeline.PipelineEnv := { now := clock }

/-- An online agent with one open ticket and plenty of capacity. -/
def c2Agent : Router.Agent :=
  { id := 0, name := "Z", status := .online, currentLoad := 1, maxLoad := 5 }

/-- A ticket that has already been processed, together with that agent. -/
def c2State : Pipeline.SysState :=
  { ticket := { content := "hello".data, isProcessed := true },
    agents := [c2Agent] }

/-- An agent already at capacity (`current_load = max_load = 1`). -/
def c1State : Pipeline.SysState :=
  { ticket := { content := "x".data },
    agents := [{ id := 0, name := "F", status := .online,
                 currentLoad := 1, maxLoad := 1 }] }

/-- An available agent used by the capacity witness. -/
def c1Agent : Router.Agent :=
  { id := 4, name := "W", status := .online, currentLoad := 0, maxLoad := 1 }

/-- First-listed candidate: load 2 of 4 (load fraction one half). -/
def c7A : Router.Agent :=
  { id := 0, name := "A", status := .online, currentLoad := 2, maxLoad := 4 }

/-- Second-listed candidate: load 1 of 2 (the same load fraction, so the
same score, but the strictly lower `current_load`). -/
def c7B : Router.Agent :=
  { id := 1, name := "B", status := .online, currentLoad := 1, maxLoad := 2 }

/-- A skilled agent who wins the weighted scoring. -/
def c10C : Router.Agent :=
  { id := 2, name := "C", status := .online, currentLoad := 0,
    maxLoad := 10, skills := ["t"] }

/-- The only alternative candidate. -/
def c10D : Router.Agent :=
  { id := 3, name := "D", status := .online, currentLoad := 5,
    maxLoad := 10 }

/-- A `priority`-type rule whose `conditions` object is empty. -/
def c8Rule : Rules.RoutingRule :=
  { name := "empty-priority", ruleType := .priority, conditions := {},
    action := .notify }

/-- An ordinary ticket (default priority 3). -/
def c8Ticket : Rules.TicketData :=
  { category := some "billing_question", priority := some 3 }

/-- An external sentiment reply with a high anger level but a non-angry
label. -/
def c4Raw : Sentiment.RawSentiment :=
  { sentiment := some "neutral", score := some 0, confidence := some (1 / 2),
    angerLevel := some (9 / 10), satisfaction := some 3 }

end Ex

/-! # Theorems -/

/-! ## Shared helper lemmas -/

/-- Rounding to three decimals is the identity on quarter-integer values
in `[0, 1]` (the only anger levels the rule fallback produces). -/
theorem qRound_quarter (k : ℕ) :
    qRound 3 (min ((k : ℚ) * (1 / 4)) 1) = min ((k : ℚ) * (1 / 4)) 1 := by
  rcases k with _ | _ | _ | _ | k
  · decide
  · decide
  · decide
  · decide
  · have h1 : (1 : ℚ) ≤ ((k + 4 : ℕ) : ℚ) * (1 / 4) := by
      push_cast
      linarith
    rw [min_eq_right h1]
    decide

namespace Sentiment

/-- The rule fallback labels `angry` whenever its own anger level reaches
the threshold. -/
theorem analyzeWithRules_anger (text : List Char) (lang : String) (a : ℚ)
    (ha : (analyzeWithRules text lang).angerLevel = some a)
    (h7 : a ≥ 7 / 10) :
    (analyzeWithRules text lang).sentiment = "angry" := by
  simp only [analyzeWithRules, Option.some.injEq] at ha
  rw [qRound_quarter] at ha
  simp only [analyzeWithRules]
  rw [if_pos (ha ▸ h7)]

/-- The post-steps of `analyze` force `angry` whenever the returned
anger level reaches the threshold. -/
theorem postValidate_anger (r : SResult) (a : ℚ)
    (ha : (postValidate r).angerLevel = some a) (h7 : a ≥ 7 / 10) :
    (postValidate r).sentiment = "angry" := by
  simp only [postValidate] at ha ⊢
  split_ifs at ha ⊢ with hmem hov hov
  · rfl
  · rw [ha] at hov
    exact absurd h7 hov
  · rfl
  · rw [ha] at hov
    exact absurd h7 hov

/-- Every return path of `analyze` is the empty-input result, a
post-validated result, or a bare rule fallback. -/
theorem analyze_cases (hasKey useHf : Bool)
    (extOutcome : Except Unit RawSentiment) (hfOutcome : Except Unit RawHf)
    (text : List Char) (language : String) (method : String) :
    analyze hasKey useHf extOutcome hfOutcome text language method
        = emptySResult ∨
      (∃ r, analyze hasKey useHf extOutcome hfOutcome text language method
        = postValidate r) ∨
      (∃ t l, analyze hasKey useHf extOutcome hfOutcome text language method
        = analyzeWithRules t l) := by
  simp only [analyze]
  split_ifs with h1 h2 h3
  · exact Or.inl rfl
  · cases extOutcome with
    | error e => exact Or.inr (Or.inr ⟨_, _, rfl⟩)
    | ok raw => exact Or.inr (Or.inl ⟨_, rfl⟩)
  · cases hfOutcome with
    | error e => exact Or.inr (Or.inr ⟨_, _, rfl⟩)
    | ok raw => exact Or.inr (Or.inl ⟨_, rfl⟩)
  · exact Or.inr (Or.inl ⟨_, rfl⟩)

end Sentiment

/-! ## C4 — anger level forces the `angry` label -/

/-- C4: every result returned by sentiment analysis (external path,
HuggingFace path, rule fallback, and the fallback taken on exception)
satisfies: if the result's `anger_level` is `≥ 0.7` then its sentiment
label is `angry`. -/
theorem C4_anger_forces_angry (hasKey useHf : Bool)
    (extOutcome : Except Unit Sentiment.RawSentiment)
    (hfOutcome : Except Unit Sentiment.RawHf) (text : List Char)
    (language : String) (method : String) (a : ℚ)
    (ha : (Sentiment.analyze hasKey useHf extOutcome hfOutcome text language
      method).angerLevel = some a)
    (h7 : a ≥ 7 / 10) :
    (Sentiment.analyze hasKey useHf extOutcome hfOutcome text language
      method).sentiment = "angry" := by
  rcases Sentiment.analyze_cases hasKey useHf extOutcome hfOutcome text
      language method with h | ⟨r, h⟩ | ⟨t, l, h⟩
  · rw [h] at ha
    simp only [Sentiment.emptySResult, Option.some.injEq] at ha
    rw [← ha] at h7
    norm_num at h7
  · rw [h] at ha ⊢
    exact Sentiment.postValidate_anger r a ha h7
  · rw [h] at ha ⊢
    exact Sentiment.analyzeWithRules_anger t l a ha h7

/-- Witness for C4 at a concrete input: an external reply labelled
`neutral` with anger level `0.9` comes back labelled `angry`. -/
theorem C4_witness :
    (Sentiment.analyze true false (.ok Ex.c4Raw) (.error ()) "hi".data "en"
      "auto").sentiment = "angry" :=
  C4_anger_forces_angry true false (.ok Ex.c4Raw) (.error ()) "hi".data "en"
    "auto" (9 / 10) (by decide) (by norm_num)

/-! ## C5 — anger level of the rule-based sentiment fallback -/

/-- C5 counterexample: on `"AAAA!!!"` (English) the rule fallback returns
`anger_level = 0`, while the claimed formula
`min(0.2·angry_word_count + 0.5·caps_ratio + 0.1·exclamation_count, 1)` —
which is exactly what `_detect_anger` computes — gives `41/70 ≠ 0`. -/
theorem C5_counterexample :
    (Sentiment.analyzeWithRules "AAAA!!!".data "en").angerLevel = some 0 ∧
    Sentiment.detectAnger "AAAA!!!".data "en" = 41 / 70 ∧
    (0 : ℚ) ≠ 41 / 70 := by
  refine ⟨by decide, by decide, by norm_num⟩

/-- C5 (amended): the rule-based sentiment fallback returns
`anger_level = min(0.25 · angry_word_count, 1)`, counting hits from the
language-specific angry lexicon; the formula
`min(0.2·count + 0.5·caps_ratio + 0.1·exclamations, 1)` is computed by
`_detect_anger` and used only on the HuggingFace path. -/
theorem C5_rules_anger_value (text : List Char) (lang : String) :
    (Sentiment.analyzeWithRules text lang).angerLevel =
      some (min ((countHits (Sentiment.angryWords lang) (lowerS text) : ℚ)
        * (1 / 4)) 1) := by
  simp only [Sentiment.analyzeWithRules, Option.some.injEq]
  rw [qRound_quarter]

/-! ## C6 — empty input to the classifier -/

/-- C6: for every empty or whitespace-only input, `classify` returns
`primary_category = general_inquiry` with confidence `0.0` and
`method = default`, and performs no external call and no cache access. -/
theorem C6_empty_input (cacheEnabled : Bool)
    (cached : Option Classifier.ClsResult)
    (extOutcome : Except Unit Classifier.RawCls) (text : List Char)
    (useCache : Bool) (h : text = [] ∨ pyStrip text = []) :
    Classifier.classify cacheEnabled cached extOutcome text useCache =
      (Classifier.emptyClsResult, Classifier.noEffects) := by
  unfold Classifier.classify
  rcases h with h | h <;> simp [h]

/-- Witness for C6 at a concrete whitespace-only input. -/
theorem C6_witness :
    Classifier.classify true none (.error ()) "  \n ".data true =
      (Classifier.emptyClsResult, Classifier.noEffects) :=
  C6_empty_input true none (.error ()) "  \n ".data true (Or.inr (by decide))

/-! ## C8 — rules with an empty `conditions` object -/

/-- C8 counterexample: a `priority`-type rule whose `conditions` object
is empty (and whose type is not `custom`) matches an ordinary ticket,
because the absent bounds default to `1 ≤ priority ≤ 5`. -/
theorem C8_counterexample :
    Ex.c8Rule.conditions = Rules.Conditions.emptyC ∧
    Ex.c8Rule.ruleType ≠ .custom ∧
    Rules.ruleMatches Ex.clock Ex.c8Rule Ex.c8Ticket = true := by
  refine ⟨rfl, by decide, by decide⟩

/-- C8 (amended): with an empty `conditions` object, rules of type
`category`, `keyword` (whose match mode then defaults to `any`),
`sentiment`, `customer`, `language`, `time` and `custom` never match any
ticket; but a `priority` rule with empty conditions matches every ticket
whose priority (default 3) lies in the default range `1..5`, and a
`keyword` rule in `all` match mode with an empty keyword list vacuously
matches every ticket. -/
theorem C8_empty_conditions (td : Rules.TicketData) :
    Rules.evaluateConditions (Rules.mkRule .category Rules.Conditions.emptyC)
        td = false ∧
    Rules.evaluateConditions (Rules.mkRule .keyword Rules.Conditions.emptyC)
        td = false ∧
    Rules.evaluateConditions (Rules.mkRule .sentiment Rules.Conditions.emptyC)
        td = false ∧
    Rules.evaluateConditions (Rules.mkRule .customer Rules.Conditions.emptyC)
        td = false ∧
    Rules.evaluateConditions (Rules.mkRule .language Rules.Conditions.emptyC)
        td = false ∧
    Rules.evaluateConditions (Rules.mkRule .time Rules.Conditions.emptyC)
        td = false ∧
    Rules.evaluateConditions (Rules.mkRule .custom Rules.Conditions.emptyC)
        td = false ∧
    Rules.evaluateConditions (Rules.mkRule .priority Rules.Conditions.emptyC)
        td = (decide (1 ≤ td.priority.getD 3) &&
          decide (td.priority.getD 3 ≤ 5)) ∧
    Rules.evaluateConditions
        (Rules.mkRule .keyword { matchMode := some "all" }) td = true := by
  obtain ⟨cat, prio, lang, tier, src, content, sent, subj⟩ := td
  refine ⟨?_, ?_, ?_, ?_, ?_, rfl, rfl, rfl, ?_⟩
  · cases cat <;>
      simp [Rules.evaluateConditions, Rules.mkRule, Rules.Conditions.emptyC]
  · simp [Rules.evaluateConditions, Rules.mkRule, Rules.Conditions.emptyC]
  · cases sent <;>
      simp [Rules.evaluateConditions, Rules.mkRule, Rules.Conditions.emptyC]
  · cases tier <;>
      simp [Rules.evaluateConditions, Rules.mkRule, Rules.Conditions.emptyC]
  · cases lang <;>
      simp [Rules.evaluateConditions, Rules.mkRule, Rules.Conditions.emptyC]
  · simp [Rules.evaluateConditions, Rules.mkRule]

/-! ## C10 — reassignment with an exclusion set -/

/-- C10: when `reassign`'s freshly routed best agent is excluded, the
returned decision carries the first alternative outside the exclusion
set, and when no such alternative exists it still carries the excluded
best agent's id rather than a null assignment. -/
theorem C10_reassign_exclusions (agentsDb : List Router.Agent)
    (rulesDb : List Rules.RoutingRule) (now : Rules.Clock)
    (currentAgentId : Option ℕ) (excludeAgents : List ℕ)
    (reassignReason : Option String) (category : Option String)
    (priority : ℤ) (language customerTier : String)
    (source : Option String) (content : List Char)
    (sentiment : Option String) (subject : List Char) (b : ℕ)
    (hroute : (Router.route agentsDb rulesDb now category priority language
      customerTier source content sentiment subject).agentId = some b)
    (hexcl : (Router.combinedExclude currentAgentId
      excludeAgents).contains b = true) :
    (Router.reassign agentsDb rulesDb now currentAgentId excludeAgents
        reassignReason category priority language customerTier source
        content sentiment subject).agentId =
      (match Router.firstNonExcluded
          (Router.route agentsDb rulesDb now category priority language
            customerTier source content sentiment subject).alternatives
          (Router.combinedExclude currentAgentId excludeAgents) with
       | some alt => some alt.agentId
       | none => some b) := by
  simp only [Router.reassign]
  rw [hroute]
  simp only [hexcl, if_true]
  cases hf : Router.firstNonExcluded
      (Router.route agentsDb rulesDb now category priority language
        customerTier source content sentiment subject).alternatives
      (Router.combinedExclude currentAgentId excludeAgents) <;>
    simp [hf, hroute]

/-- Witness for C10 at a concrete input on which the best agent and every
alternative are excluded: the excluded best agent (id 2) is still
returned. -/
theorem C10_witness :
    (Router.reassign [Ex.c10C, Ex.c10D] [] Ex.clock none [2, 3] none
      (some "t") 3 "en" "standard" none [] none []).agentId = some 2 := by
  rw [C10_reassign_exclusions [Ex.c10C, Ex.c10D] [] Ex.clock none [2, 3]
    none (some "t") 3 "en" "standard" none [] none [] 2 (by decide)
    (by decide)]
  decide

/-! ## C3 — the priority formula -/

namespace PriorityScorer

/-- Weight sum contributed by a conditionally recorded single factor. -/
theorem sum_ite_singleton (c : Prop) [Decidable c] (f : Factor) :
    (((if c then [f] else []) : List Factor).map Factor.weight).sum
      = if c then f.weight else 0 := by
  split_ifs <;> simp

/-- Weight contributed by the sentiment factor. -/
theorem sentimentFactors_sum (sentiment : Option String) :
    ((sentimentFactors sentiment).map Factor.weight).sum =
      (if sentiment = some "negative" then 1 else 0) +
        (if sentiment = some "angry" then 2 else 0) := by
  cases sentiment with
  | none => rfl
  | some s =>
    by_cases hn : s = "negative"
    · subst hn
      decide
    · by_cases ha : s = "angry"
      · subst ha
        decide
      · simp [sentimentFactors, hn, ha]

/-- Weight contributed by the high-anger factor. -/
theorem angerFactors_sum (angerLevel : Option ℚ) :
    ((angerFactors angerLevel).map Factor.weight).sum =
      (match angerLevel with
       | some a => if a ≥ 7 / 10 then 1 else 0
       | none => 0) := by
  cases angerLevel with
  | none => rfl
  | some a =>
    simp only [angerFactors]
    split_ifs <;> simp

/-- Weight contributed by the customer-tier factor: the table value, also
when the zero boost records no factor. -/
theorem tierFactors_sum (customerTier : String) :
    ((tierFactors customerTier).map Factor.weight).sum =
      tierBoostOf customerTier := by
  unfold tierFactors
  split_ifs with h
  · simp
  · push_neg at h
    simp [h]

/-- Weight contributed by the category factor. -/
theorem categoryFactors_sum (category : Option String) :
    ((categoryFactors category).map Factor.weight).sum =
      (match category with
       | some c =>
         if c = "" then 0
         else
           match CRITICAL_CATEGORIES.lookup c with
           | some w => w
           | none => (LOW_PRIORITY_CATEGORIES.lookup c).getD 0
       | none => 0) := by
  cases category with
  | none => rfl
  | some c =>
    simp only [categoryFactors]
    split_ifs with h
    · simp
    · rcases h1 : CRITICAL_CATEGORIES.lookup c with _ | w
      · rcases h2 : LOW_PRIORITY_CATEGORIES.lookup c with _ | w
        · simp [h1, h2]
        · simp [h1, h2]
      · simp [h1]

/-- Weight contributed by the custom rules: each triggered rule adds its
configured weight. -/
theorem applyCustomRules_sum (rules : List CustomRule) (text : List Char)
    (metadata : List (String × String)) :
    ((applyCustomRules rules text metadata).map Factor.weight).sum =
      (rules.map (customRuleWeight text metadata)).sum := by
  induction rules with
  | nil => rfl
  | cons r rs ih =>
    simp only [applyCustomRules, List.flatMap_cons, List.map_append,
      List.sum_append, List.map_cons, List.sum_cons] at ih ⊢
    rw [ih]
    have hseg : (((if r.ruleType = some "keyword" then
          (if r.keywords.any
              (fun kw => isSub (lowerS kw.data) (lowerS text)) then
            [{ name := r.name.getD "custom_keyword",
               weight := r.weight.getD 1 }]
           else [])
        else if r.ruleType = some "customer_field" then
          (if r.field.bind (fun f => metadata.lookup f) = r.value then
            [{ name := r.name.getD "custom_field",
               weight := r.weight.getD 1 }]
           else [])
        else []) : List Factor).map Factor.weight).sum
        = customRuleWeight text metadata r := by
      unfold customRuleWeight
      split_ifs <;> simp
    rw [hseg]

/-- The accumulated factor weights equal the §4.4 table sum. -/
theorem buildFactors_sum (customRules : List CustomRule) (text : List Char)
    (sentiment : Option String) (angerLevel : Option ℚ)
    (customerTier : String) (category : Option String)
    (metadata : List (String × String)) :
    ((buildFactors customRules text sentiment angerLevel customerTier
        category metadata).map Factor.weight).sum =
      specWeightSum customRules text sentiment angerLevel customerTier
        category metadata := by
  unfold buildFactors specWeightSum
  simp only [List.map_append, List.sum_append, sum_ite_singleton,
    sentimentFactors_sum, angerFactors_sum, tierFactors_sum,
    categoryFactors_sum, applyCustomRules_sum]
  ring

end PriorityScorer

/-- C3: for every input, `PriorityScorer.calculate` returns a score in
`1..5` equal to `max(1, min(5, 3 + Σ weights))`, where the weights are
the signed integers of the §4.4 table (`specWeightSum`): urgent_keyword
+2; high_priority_keyword +1 only without an urgent hit;
sentiment_negative +1; sentiment_angry +2; high_anger +1 when
`anger_level ≥ 0.7`; the tier and category table values; excessive_caps,
multiple_exclamations and deadline_mention +1 each; and the configured
custom-rule weights. -/
theorem C3_priority_formula (customRules : List PriorityScorer.CustomRule)
    (text : List Char) (sentiment : Option String)
    (sentimentScore : Option ℚ) (angerLevel : Option ℚ)
    (customerTier : String) (category : Option String) (language : String)
    (metadata : List (String × String)) :
    (PriorityScorer.calculate customRules text sentiment sentimentScore
        angerLevel customerTier category language metadata).score
      = max 1 (min 5 (3 + PriorityScorer.specWeightSum customRules text
          sentiment angerLevel customerTier category metadata)) ∧
    1 ≤ (PriorityScorer.calculate customRules text sentiment sentimentScore
        angerLevel customerTier category language metadata).score ∧
    (PriorityScorer.calculate customRules text sentiment sentimentScore
        angerLevel customerTier category language metadata).score ≤ 5 := by
  refine ⟨?_, ?_, ?_⟩
  · simp only [PriorityScorer.calculate]
    rw [PriorityScorer.buildFactors_sum]
  · simp only [PriorityScorer.calculate]
    exact le_max_left 1 _
  · simp only [PriorityScorer.calculate]
    exact max_le (by norm_num) (min_le_left _ _)

/-! ## C7 — tie-breaking in the weighted scoring -/

namespace Router

/-- Inserting into the stable descending sort adds one element. -/
theorem insertDesc_length (c : RoutingCandidate)
    (l : List RoutingCandidate) :
    (insertDesc c l).length = l.length + 1 := by
  induction l with
  | nil => rfl
  | cons d ds ih =>
    simp only [insertDesc]
    split_ifs <;> simp [ih]

/-- The stable descending sort preserves length. -/
theorem sortDesc_length (l : List RoutingCandidate) :
    (sortDesc l).length = l.length := by
  induction l with
  | nil => rfl
  | cons c cs ih => simp [sortDesc, insertDesc_length, ih]

/-- The head of the stable descending sort is the leftmost candidate of
maximal score: no candidate scores strictly higher, and every candidate
listed before it scores strictly lower. -/
theorem sortDesc_head_spec (cs : List RoutingCandidate)
    (c : RoutingCandidate) (rest : List RoutingCandidate)
    (h : sortDesc cs = c :: rest) :
    ∃ pre suf, cs = pre ++ c :: suf ∧
      (∀ d ∈ cs, d.score ≤ c.score) ∧ ∀ d ∈ pre, d.score < c.score := by
  induction cs generalizing c rest with
  | nil => simp [sortDesc] at h
  | cons x xs ih =>
    rw [show sortDesc (x :: xs) = insertDesc x (sortDesc xs) from rfl] at h
    rcases hs : sortDesc xs with _ | ⟨d, ds⟩
    · rw [hs] at h
      simp only [insertDesc] at h
      injection h with h1 h2
      have hxs : xs = [] := by
        have hlen := sortDesc_length xs
        rw [hs] at hlen
        exact List.length_eq_zero.mp hlen.symm
      subst h1
      subst hxs
      exact ⟨[], [], rfl, by simp, by simp⟩
    · rw [hs] at h
      simp only [insertDesc] at h
      split_ifs at h with hgt
      · injection h with h1 h2
        subst h1
        obtain ⟨pre, suf, hdecomp, hmax, hpre⟩ := ih d ds hs
        refine ⟨x :: pre, suf, by simp [hdecomp], ?_, ?_⟩
        · intro e he
          rcases List.mem_cons.mp he with rfl | he2
          · exact le_of_lt hgt
          · exact hmax e he2
        · intro e he
          rcases List.mem_cons.mp he with rfl | he2
          · exact hgt
          · exact hpre e he2
      · injection h with h1 h2
        subst h1
        obtain ⟨pre, suf, hdecomp, hmax, hpre⟩ := ih d ds hs
        refine ⟨[], xs, rfl, ?_, by simp⟩
        intro e he
        rcases List.mem_cons.mp he with rfl | he2
        · exact le_refl _
        · exact le_trans (hmax e he2) (not_lt.mp hgt)

end Router

/-- C7 counterexample: two candidates with equal scores (both pay the
same load-fraction penalty) where the first-listed agent A (id 0) has the
strictly higher `current_load`.  The claimed tie-break "(i) lower
current_load" would select agent B (id 1); the code's stable sort selects
agent A. -/
theorem C7_counterexample :
    (Router.route [Ex.c7A, Ex.c7B] [] Ex.clock none 3 "en" "standard" none
      [] none []).agentId = some Ex.c7A.id ∧
    Ex.c7A.id ≠ Ex.c7B.id ∧
    (Router.calculateAgentScore Ex.c7A none "en" 3 "standard").score =
      (Router.calculateAgentScore Ex.c7B none "en" 3 "standard").score ∧
    Ex.c7B.currentLoad < Ex.c7A.currentLoad := by
  refine ⟨by decide, by decide, by decide, by decide⟩

/-- C7 (amended): in the router's weighted scoring the candidate with
the maximal score is selected, and ties are broken solely by stable
iteration order — the selected head of `sortDesc` (the sort `route`
ranks candidates with) is the first-listed candidate of maximal score;
`current_load` and `experience_level` influence the choice only through
the score itself. -/
theorem C7_stable_argmax (cs : List Router.RoutingCandidate)
    (c : Router.RoutingCandidate) (rest : List Router.RoutingCandidate)
    (h : Router.sortDesc cs = c :: rest) :
    ∃ pre suf, cs = pre ++ c :: suf ∧
      (∀ d ∈ cs, d.score ≤ c.score) ∧ ∀ d ∈ pre, d.score < c.score :=
  Router.sortDesc_head_spec cs c rest h

/-- Witness for C7 at the concrete tied candidate pair: the sort places
the first-listed tied candidate (agent A) at the head. -/
theorem C7_witness :
    ∃ pre suf,
      [Router.calculateAgentScore Ex.c7A none "en" 3 "standard",
       Router.calculateAgentScore Ex.c7B none "en" 3 "standard"] =
        pre ++ Router.calculateAgentScore Ex.c7A none "en" 3 "standard"
          :: suf ∧
      (∀ d ∈ [Router.calculateAgentScore Ex.c7A none "en" 3 "standard",
              Router.calculateAgentScore Ex.c7B none "en" 3 "standard"],
        d.score ≤
          (Router.calculateAgentScore Ex.c7A none "en" 3 "standard").score) ∧
      ∀ d ∈ pre, d.score <
        (Router.calculateAgentScore Ex.c7A none "en" 3 "standard").score :=
  C7_stable_argmax _ _
    [Router.calculateAgentScore Ex.c7B none "en" 3 "standard"] (by decide)

/-! ## C1 — capacity at assignment time -/

namespace Router

/-- The VIP/critical-gated availability filter implies the base one. -/
theorem availableFilter_base (requireVip requireCritical : Bool) (a : Agent)
    (h : availableFilter requireVip requireCritical a = true) :
    availableFilter false false a = true := by
  simp only [availableFilter, Bool.and_eq_true] at h ⊢
  exact ⟨⟨⟨⟨h.1.1.1.1, h.1.1.1.2⟩, h.1.1.2⟩, by simp⟩, by simp⟩

/-- Members of the first-stage pool are available agents of the table. -/
theorem mem_stage1Pool (agentsDb : List Agent) (v c : Bool) (a : Agent)
    (h : a ∈ stage1Pool agentsDb v c) :
    a ∈ agentsDb ∧ availableFilter false false a = true := by
  simp only [stage1Pool] at h
  split_ifs at h with he
  · unfold basePool at h
    exact List.mem_filter.mp h
  · have hm := List.mem_filter.mp h
    exact ⟨hm.1, availableFilter_base v c a hm.2⟩

/-- Members of the final pool are available agents of the table. -/
theorem mem_finalPool (agentsDb : List Agent) (now : Rules.Clock)
    (v c : Bool) (a : Agent) (h : a ∈ finalPool agentsDb now v c) :
    a ∈ agentsDb ∧ availableFilter false false a = true := by
  simp only [finalPool] at h
  split_ifs at h with he
  · unfold basePool at h
    exact List.mem_filter.mp h
  · exact mem_stage1Pool agentsDb v c a (List.mem_filter.mp h).1

/-- `minByLoad` returns a member of its input. -/
theorem minByLoad_mem (l : List Agent) (a : Agent)
    (h : minByLoad l = some a) : a ∈ l := by
  cases l with
  | nil => simp [minByLoad] at h
  | cons b bs =>
    simp only [minByLoad, Option.some.injEq] at h
    subst h
    have aux : ∀ (ys : List Agent) (x : Agent),
        (ys.foldl (fun b x => if x.currentLoad < b.currentLoad then x else b)
          x) = x ∨
        (ys.foldl (fun b x => if x.currentLoad < b.currentLoad then x else b)
          x) ∈ ys := by
      intro ys
      induction ys with
      | nil => intro x; exact Or.inl rfl
      | cons y ys2 ih =>
        intro x
        simp only [List.foldl_cons]
        rcases ih (if y.currentLoad < x.currentLoad then y else x) with
          h1 | h1
        · rw [h1]
          split_ifs
          · exact Or.inr (List.mem_cons_self y ys2)
          · exact Or.inl rfl
        · exact Or.inr (List.mem_cons_of_mem y h1)
    rcases aux bs b with h1 | h1
    · rw [h1]
      exact List.mem_cons_self b bs
    · exact List.mem_cons_of_mem b h1

/-- Every agent a terminating rule picks comes from the candidate pool. -/
theorem applyRoutingRules_mem (now : Rules.Clock) (td : Rules.TicketData)
    (agents : List Agent) (rs : List Rules.RoutingRule)
    (res : RouteResult) (i : ℕ)
    (h : applyRoutingRules now td agents rs = some res)
    (hid : res.agentId = some i) :
    ∃ a, a ∈ agents ∧ a.id = i := by
  induction rs with
  | nil => simp [applyRoutingRules] at h
  | cons r rrs ih =>
    simp only [applyRoutingRules] at h
    split_ifs at h with hm
    · split at h
      · split at h
        · rename_i a heq
          injection h with hres
          subst hres
          simp only [Option.some.injEq] at hid
          exact ⟨a, List.mem_of_find?_eq_some heq, hid⟩
        · exact ih h
      · split at h
        · rename_i best heq
          injection h with hres
          subst hres
          simp only [Option.some.injEq] at hid
          have hmem := minByLoad_mem _ _ heq
          exact ⟨best, (List.mem_filter.mp hmem).1, hid⟩
        · exact ih h
      · injection h with hres
        subst hres
        simp at hid
      · exact ih h
    · exact ih h

/-- When `route` names an agent, that agent exists in the table and was
(at routing time) active, online and strictly under capacity. -/
theorem route_assigns_available (agentsDb : List Agent)
    (rulesDb : List Rules.RoutingRule) (now : Rules.Clock)
    (category : Option String) (priority : ℤ)
    (language customerTier : String) (source : Option String)
    (content : List Char) (sentiment : Option String)
    (subject : List Char) (i : ℕ)
    (h : (route agentsDb rulesDb now category priority language customerTier
      source content sentiment subject).agentId = some i) :
    ∃ a, a ∈ agentsDb ∧ a.id = i ∧
      availableFilter false false a = true := by
  simp only [route] at h
  split_ifs at h with h1 h2
  · simp [noAgentsResult] at h
  · simp [noAgentsResultLate] at h
  · split at h
    · rename_i res heq
      obtain ⟨a, hmem, hid⟩ := applyRoutingRules_mem _ _ _ _ _ _ heq h
      obtain ⟨hdb, hav⟩ := mem_finalPool _ _ _ _ _ hmem
      exact ⟨a, hdb, hid, hav⟩
    · split at h
      · simp [noAgentsResultLate] at h
      · rename_i best rest heq2
        simp only [Option.some.injEq] at h
        obtain ⟨pre, suf, hdecomp, _, _⟩ := sortDesc_head_spec _ _ _ heq2
        have hbest : best ∈ (finalPool agentsDb now
            (customerTier = "vip" || customerTier = "enterprise")
            (decide (priority = 5))).map
              (fun a => calculateAgentScore a category language priority
                customerTier) := by
          rw [hdecomp]
          exact List.mem_append_right pre (List.mem_cons_self best suf)
        obtain ⟨a, hamem, heq3⟩ := List.mem_map.mp hbest
        obtain ⟨hdb, hav⟩ := mem_finalPool _ _ _ _ _ hamem
        refine ⟨a, hdb, ?_, hav⟩
        rw [← h, ← heq3]
        rfl

/-- The base availability filter asserts strict spare capacity. -/
theorem availableFilter_load (a : Agent)
    (h : availableFilter false false a = true) :
    a.currentLoad < a.maxLoad := by
  simp only [availableFilter, Bool.and_eq_true, decide_eq_true_eq] at h
  exact h.1.1.2

end Router

/-- C1 counterexample: the manual reassignment endpoint
(`POST /tickets/{id}/reassign`) increments the target agent's load with
no capacity check.  Starting from an agent with
`current_load = max_load = 1`, reassigning the ticket to that agent
leaves it at load 2, above `max_load` — refuting the claim for the
manual-reassignment operation. -/
theorem C1_counterexample :
    (∀ a ∈ Ex.c1State.agents,
      0 ≤ a.currentLoad ∧ a.currentLoad ≤ a.maxLoad) ∧
    (match Pipeline.reassignTicketEndpoint Ex.c1State (some 0) with
     | .ok s => s.agents.map fun a => (a.currentLoad, a.maxLoad)
     | .error _ => []) = [(2, 1)] := by
  refine ⟨by decide, by decide⟩

/-- C1 (amended): for router-based assignment — the pipeline routing
commit and rule-based assignment inside `route` — an agent is assigned
only when its `current_load` is strictly below `max_load` at assignment
time, and committing the assignment preserves
`0 ≤ current_load ≤ max_load` for every agent (agent ids assumed
distinct).  Manual reassignment performs no capacity check and can
exceed `max_load` (see the counterexample). -/
theorem C1_router_capacity (agentsDb : List Router.Agent)
    (rulesDb : List Rules.RoutingRule) (now : Rules.Clock)
    (category : Option String) (priority : ℤ)
    (language customerTier : String) (source : Option String)
    (content : List Char) (sentiment : Option String) (subject : List Char)
    (hload : ∀ a ∈ agentsDb, 0 ≤ a.currentLoad ∧ a.currentLoad ≤ a.maxLoad)
    (hids : (agentsDb.map Router.Agent.id).Nodup) :
    (∀ i, (Router.route agentsDb rulesDb now category priority language
        customerTier source content sentiment subject).agentId = some i →
      ∃ a, a ∈ agentsDb ∧ a.id = i ∧ a.currentLoad < a.maxLoad) ∧
    (∀ a2 ∈ Pipeline.commitAssignment agentsDb
        (Router.route agentsDb rulesDb now category priority language
          customerTier source content sentiment subject).agentId,
      0 ≤ a2.currentLoad ∧ a2.currentLoad ≤ a2.maxLoad) := by
  have hpart1 : ∀ i, (Router.route agentsDb rulesDb now category priority
      language customerTier source content sentiment subject).agentId =
        some i →
      ∃ a, a ∈ agentsDb ∧ a.id = i ∧ a.currentLoad < a.maxLoad := by
    intro i hi
    obtain ⟨a, hdb, hid, hav⟩ := Router.route_assigns_available agentsDb
      rulesDb now category priority language customerTier source content
      sentiment subject i hi
    exact ⟨a, hdb, hid, Router.availableFilter_load a hav⟩
  refine ⟨hpart1, ?_⟩
  intro a2 ha2
  unfold Pipeline.commitAssignment at ha2
  cases hag : (Router.route agentsDb rulesDb now category priority language
      customerTier source content sentiment subject).agentId with
  | none =>
    rw [hag] at ha2
    exact hload a2 ha2
  | some i =>
    rw [hag] at ha2
    obtain ⟨a0, ha0db, ha0id, ha0lt⟩ := hpart1 i hag
    obtain ⟨b, hbdb, hbeq⟩ := List.mem_map.mp ha2
    by_cases hbi : b.id = i
    · have hb0 : b = a0 :=
        List.inj_on_of_nodup_map hids hbdb ha0db (by rw [hbi, ha0id])
      rw [if_pos hbi] at hbeq
      subst hbeq
      subst hb0
      constructor
      · have := (hload b hbdb).1
        simp only
        omega
      · simp only
        omega
    · rw [if_neg hbi] at hbeq
      subst hbeq
      exact hload b hbdb

/-- Witness for C1 at a concrete one-agent table with spare capacity:
the router assigns that agent and the committed table still satisfies
the load bounds. -/
theorem C1_witness :
    (∀ i, (Router.route [Ex.c1Agent] [] Ex.clock none 3 "en" "standard"
        none [] none []).agentId = some i →
      ∃ a, a ∈ [Ex.c1Agent] ∧ a.id = i ∧ a.currentLoad < a.maxLoad) ∧
    (∀ a2 ∈ Pipeline.commitAssignment [Ex.c1Agent]
        (Router.route [Ex.c1Agent] [] Ex.clock none 3 "en" "standard" none
          [] none []).agentId,
      0 ≤ a2.currentLoad ∧ a2.currentLoad ≤ a2.maxLoad) :=
  C1_router_capacity [Ex.c1Agent] [] Ex.clock none 3 "en" "standard" none
    [] none [] (by decide) (by decide)

/-! ## C2 — reprocessing an already-processed ticket -/

set_option maxRecDepth 100000 in
/-- C2: evaluation at the failing input.  `Ex.c2State` holds a ticket
with `is_processed = true` and one available agent at load 1;
`process_ticket_pipeline` has no `is_processed` guard, routes again and
increments the agent's load to 2, while the Celery task
`process_ticket_task` (which performs no routing) leaves every agent
untouched. -/
theorem C2_reprocess_double_increment :
    Ex.c2State.ticket.isProcessed = true ∧
    Ex.c2State.agents.map Router.Agent.currentLoad = [1] ∧
    (Pipeline.processTicketPipeline Ex.offlineEnv Ex.c2State).agents.map
      Router.Agent.currentLoad = [2] ∧
    (Pipeline.processTicketTask Ex.offlineEnv Ex.c2State).agents =
      Ex.c2State.agents := by
  refine ⟨rfl, by decide, ?_, by decide⟩
  decide

/-! ## C9 — idempotence of text cleaning

Supporting lemmas about `pyStrip`, `cutWhen`, the space-collapsing
scanner and the signature-cut fold, on the plain ASCII fragment. -/

namespace TextProc

theorem dropWhile_idem (p : Char → Bool) (l : List Char) :
    (l.dropWhile p).dropWhile p = l.dropWhile p := by
  induction l with
  | nil => rfl
  | cons c xs ih =>
    by_cases hc : p c = true
    · simp [List.dropWhile_cons, hc, ih]
    · simp [List.dropWhile_cons, hc]

theorem exists_takeWhile_append (p : Char → Bool) (l : List Char) :
    ∃ u, l = u ++ l.dropWhile p :=
  ⟨l.takeWhile p, by rw [List.takeWhile_append_dropWhile]⟩

theorem pyStrip_infixDecomp (l : List Char) :
    ∃ u v, l = u ++ pyStrip l ++ v := by
  obtain ⟨u, hu⟩ := exists_takeWhile_append pyWs l
  obtain ⟨w, hw⟩ := exists_takeWhile_append pyWs (l.dropWhile pyWs).reverse
  refine ⟨u, w.reverse, ?_⟩
  have hs : l.dropWhile pyWs = pyStrip l ++ w.reverse := by
    have h2 := congrArg List.reverse hw
    simpa [pyStrip, List.reverse_append] using h2
  conv_lhs => rw [hu]
  rw [hs, List.append_assoc]

theorem mem_of_mem_pyStrip {c : Char} {l : List Char} (h : c ∈ pyStrip l) :
    c ∈ l := by
  obtain ⟨u, v, hd⟩ := pyStrip_infixDecomp l
  rw [hd]
  simp only [List.mem_append]
  tauto

theorem dropWhile_eq_self_of_append (p : Char → Bool) (s t : List Char)
    (h : (s ++ t).dropWhile p = s ++ t) : s.dropWhile p = s := by
  cases s with
  | nil => rfl
  | cons c xs =>
    by_cases hc : p c = true
    · exfalso
      rw [List.cons_append, List.dropWhile_cons, if_pos hc] at h
      have hlen := congrArg List.length h
      have hle := (@List.dropWhile_sublist _ (xs ++ t) p).length_le
      simp only [List.length_cons] at hlen
      omega
    · rw [List.dropWhile_cons, if_neg hc]

theorem pyStrip_idem (l : List Char) : pyStrip (pyStrip l) = pyStrip l := by
  obtain ⟨w, hw⟩ := exists_takeWhile_append pyWs (l.dropWhile pyWs).reverse
  have hs : l.dropWhile pyWs = pyStrip l ++ w.reverse := by
    have h2 := congrArg List.reverse hw
    simpa [pyStrip, List.reverse_append] using h2
  have ha : (pyStrip l).dropWhile pyWs = pyStrip l := by
    apply dropWhile_eq_self_of_append pyWs _ w.reverse
    rw [← hs]
    exact dropWhile_idem pyWs l
  have hb : (pyStrip l).reverse.dropWhile pyWs = (pyStrip l).reverse := by
    show (((l.dropWhile pyWs).reverse.dropWhile pyWs).reverse).reverse.dropWhile
        pyWs = _
    rw [List.reverse_reverse, dropWhile_idem]
    exact (List.reverse_reverse _).symm
  show (((pyStrip l).dropWhile pyWs).reverse.dropWhile pyWs).reverse = pyStrip l
  rw [ha, hb, List.reverse_reverse]

theorem cutWhen_exists_append (p : List Char → Bool) (l : List Char) :
    ∃ rest, l = cutWhen p l ++ rest := by
  induction l with
  | nil => exact ⟨[], rfl⟩
  | cons c xs ih =>
    by_cases hp : p (c :: xs) = true
    · exact ⟨c :: xs, by simp [cutWhen, hp]⟩
    · obtain ⟨rest, hr⟩ := ih
      refine ⟨rest, ?_⟩
      rw [show cutWhen p (c :: xs) = c :: cutWhen p xs
          from by simp [cutWhen, hp], List.cons_append, ← hr]

theorem mem_of_mem_cutWhen {p : List Char → Bool} {c : Char} {l : List Char}
    (h : c ∈ cutWhen p l) : c ∈ l := by
  obtain ⟨rest, hr⟩ := cutWhen_exists_append p l
  rw [hr]
  exact List.mem_append.mpr (Or.inl h)

theorem noOcc_of_infixDecomp {p : List Char → Bool} (hm : MonoSuf p)
    (he : p [] = false) (u s v t : List Char) (ht : t = u ++ s ++ v)
    (h : NoOcc p t) : NoOcc p s := by
  intro n
  by_cases hn : n ≤ s.length
  · have hdrop : t.drop (u.length + n) = s.drop n ++ v := by
      rw [ht, List.append_assoc, List.drop_append,
        List.drop_append_of_le_length hn]
    cases hq : p (s.drop n) with
    | false => rfl
    | true =>
      have h2 := h (u.length + n)
      rw [hdrop] at h2
      exact absurd (hm _ v hq) (by simp [h2])
  · rw [List.drop_eq_nil_of_le (by omega)]
    exact he

theorem noOcc_cutWhen {p : List Char → Bool} (hm : MonoSuf p)
    (he : p [] = false) (l : List Char) : NoOcc p (cutWhen p l) := by
  induction l with
  | nil =>
    intro n
    rw [show cutWhen p [] = [] from rfl, List.drop_nil]
    exact he
  | cons c xs ih =>
    intro n
    by_cases hp : p (c :: xs) = true
    · rw [show cutWhen p (c :: xs) = [] from by simp [cutWhen, hp],
        List.drop_nil]
      exact he
    · rw [show cutWhen p (c :: xs) = c :: cutWhen p xs
          from by simp [cutWhen, hp]]
      cases n with
      | zero =>
        rw [List.drop_zero]
        cases hq : p (c :: cutWhen p xs) with
        | false => rfl
        | true =>
          obtain ⟨rest, hr⟩ := cutWhen_exists_append p xs
          have h2 : p ((c :: cutWhen p xs) ++ rest) = true := hm _ rest hq
          rw [List.cons_append, ← hr] at h2
          exact absurd h2 hp
      | succ m =>
        rw [List.drop_succ_cons]
        exact ih m

theorem cutWhen_eq_self {p : List Char → Bool} {l : List Char}
    (h : NoOcc p l) : cutWhen p l = l := by
  induction l with
  | nil => rfl
  | cons c xs ih =>
    have h0 := h 0
    rw [List.drop_zero] at h0
    have ht : NoOcc p xs := fun n => by
      have h1 := h (n + 1)
      rwa [List.drop_succ_cons] at h1
    simp [cutWhen, h0, ih ht]

theorem noOcc_pyStrip_of_noOcc {p : List Char → Bool} (hm : MonoSuf p)
    (he : p [] = false) {l : List Char} (h : NoOcc p l) :
    NoOcc p (pyStrip l) := by
  obtain ⟨u, v, hd⟩ := pyStrip_infixDecomp l
  exact noOcc_of_infixDecomp hm he u _ v _ hd h

theorem monoSuf_isPre (pat : List Char) : MonoSuf (isPre pat) := by
  intro s t h
  induction pat generalizing s with
  | nil => rfl
  | cons x xs ih =>
    cases s with
    | nil => exact absurd h (by simp [isPre])
    | cons c cs =>
      rw [List.cons_append]
      simp only [isPre, Bool.and_eq_true] at h ⊢
      exact ⟨h.1, ih cs h.2⟩

theorem monoSuf_isPreCI (pat : List Char) : MonoSuf (isPreCI pat) := by
  intro s t h
  induction pat generalizing s with
  | nil => rfl
  | cons x xs ih =>
    cases s with
    | nil => exact absurd h (by simp [isPreCI])
    | cons c cs =>
      rw [List.cons_append]
      simp only [isPreCI, Bool.and_eq_true] at h ⊢
      exact ⟨h.1, ih cs h.2⟩

theorem wsThenNl_mono (s t : List Char) (h : wsThenNl s = true) :
    wsThenNl (s ++ t) = true := by
  induction s with
  | nil => exact absurd h (by simp [wsThenNl])
  | cons c xs ih =>
    rw [List.cons_append]
    simp only [wsThenNl] at h ⊢
    by_cases hc : c = '\n'
    · simp [hc]
    · rw [if_neg hc] at h ⊢
      by_cases hw : reWs c = true
      · rw [if_pos hw] at h ⊢
        exact ih h
      · rw [if_neg hw] at h
        exact absurd h (by simp)

theorem sigDashes_shape {l : List Char} (h : sigDashes l = true) :
    ∃ r, l = '-' :: '-' :: r ∧ wsThenNl r = true := by
  unfold sigDashes at h
  split at h
  · rename_i r
    exact ⟨r, rfl, h⟩
  · exact absurd h (by simp)

theorem monoSuf_sigDashes : MonoSuf sigDashes := by
  intro s t h
  obtain ⟨r, rfl, hws⟩ := sigDashes_shape h
  show sigDashes ('-' :: '-' :: (r ++ t)) = true
  show wsThenNl (r ++ t) = true
  exact wsThenNl_mono r t hws

theorem monoSuf_sigSentFrom : MonoSuf sigSentFrom := by
  intro s t h
  simp only [sigSentFrom, Bool.or_eq_true] at h ⊢
  rcases h with (h | h) | h
  · exact Or.inl (Or.inl (monoSuf_isPreCI _ s t h))
  · exact Or.inl (Or.inr (monoSuf_isPreCI _ s t h))
  · exact Or.inr (monoSuf_isPreCI _ s t h)

theorem sigPreds_monoSuf : ∀ p ∈ sigPreds, MonoSuf p ∧ p [] = false := by
  intro p hp
  simp only [sigPreds, List.mem_cons, List.not_mem_nil, or_false] at hp
  rcases hp with rfl | rfl | rfl | rfl | rfl | rfl | rfl | rfl
  · exact ⟨monoSuf_sigDashes, rfl⟩
  · exact ⟨monoSuf_isPreCI _, by decide⟩
  · exact ⟨monoSuf_isPreCI _, by decide⟩
  · exact ⟨monoSuf_isPreCI _, by decide⟩
  · exact ⟨monoSuf_isPreCI _, by decide⟩
  · exact ⟨monoSuf_isPreCI _, by decide⟩
  · exact ⟨monoSuf_isPreCI _, by decide⟩
  · exact ⟨monoSuf_sigSentFrom, by decide⟩

theorem foldl_cutWhen_exists_append (ps : List (List Char → Bool))
    (l : List Char) :
    ∃ rest, l = ps.foldl (fun t p => cutWhen p t) l ++ rest := by
  induction ps generalizing l with
  | nil => exact ⟨[], (List.append_nil l).symm⟩
  | cons q qs ih =>
    rw [List.foldl_cons]
    obtain ⟨r1, h1⟩ := cutWhen_exists_append q l
    obtain ⟨r2, h2⟩ := ih (cutWhen q l)
    refine ⟨r2 ++ r1, ?_⟩
    calc l = cutWhen q l ++ r1 := h1
      _ = (qs.foldl (fun t p => cutWhen p t) (cutWhen q l) ++ r2) ++ r1 := by
          rw [← h2]
      _ = qs.foldl (fun t p => cutWhen p t) (cutWhen q l) ++ (r2 ++ r1) := by
          rw [List.append_assoc]

theorem mem_of_mem_foldl_cutWhen {ps : List (List Char → Bool)} {c : Char}
    {l : List Char} (h : c ∈ ps.foldl (fun t p => cutWhen p t) l) : c ∈ l := by
  obtain ⟨rest, hr⟩ := foldl_cutWhen_exists_append ps l
  rw [hr]
  exact List.mem_append.mpr (Or.inl h)

theorem noOcc_foldl_cutWhen_of_noOcc {p : List Char → Bool} (hm : MonoSuf p)
    (he : p [] = false) (ps : List (List Char → Bool)) (l : List Char)
    (h : NoOcc p l) : NoOcc p (ps.foldl (fun t q => cutWhen q t) l) := by
  obtain ⟨rest, hr⟩ := foldl_cutWhen_exists_append ps l
  exact noOcc_of_infixDecomp hm he [] _ rest l (by rw [List.nil_append]; exact hr) h

theorem noOcc_foldl_cutWhen_mem {p : List Char → Bool} (hm : MonoSuf p)
    (he : p [] = false) (ps : List (List Char → Bool)) (l : List Char)
    (hp : p ∈ ps) : NoOcc p (ps.foldl (fun t q => cutWhen q t) l) := by
  revert hp
  induction ps generalizing l with
  | nil =>
    intro hp
    exact absurd hp (List.not_mem_nil p)
  | cons q qs ih =>
    intro hp
    rw [List.foldl_cons]
    rcases List.mem_cons.mp hp with h1 | h2
    · subst h1
      exact noOcc_foldl_cutWhen_of_noOcc hm he qs (cutWhen p l)
        (noOcc_cutWhen hm he l)
    · exact ih (cutWhen q l) h2

theorem foldl_cutWhen_eq_self (ps : List (List Char → Bool)) (l : List Char)
    (h : ∀ p ∈ ps, NoOcc p l) : ps.foldl (fun t q => cutWhen q t) l = l := by
  induction ps with
  | nil => rfl
  | cons q qs ih =>
    rw [List.foldl_cons, cutWhen_eq_self (h q (List.mem_cons_self q qs))]
    exact ih (fun p hp => h p (List.mem_cons_of_mem q hp))

theorem removeSignatures_noOcc {p : List Char → Bool} (hp : p ∈ sigPreds)
    (l : List Char) : NoOcc p (removeSignatures l) := by
  obtain ⟨hm, he⟩ := sigPreds_monoSuf p hp
  have h1 := noOcc_foldl_cutWhen_mem hm he sigPreds l hp
  obtain ⟨u, v, hd⟩ :=
    pyStrip_infixDecomp (sigPreds.foldl (fun t q => cutWhen q t) l)
  simp only [removeSignatures]
  exact noOcc_of_infixDecomp hm he u _ v _ hd h1

theorem noOcc_removeSignatures_of_noOcc {p : List Char → Bool}
    (hm : MonoSuf p) (he : p [] = false) {l : List Char} (h : NoOcc p l) :
    NoOcc p (removeSignatures l) := by
  have h1 : NoOcc p (sigPreds.foldl (fun t q => cutWhen q t) l) :=
    noOcc_foldl_cutWhen_of_noOcc hm he sigPreds l h
  obtain ⟨u, v, hd⟩ :=
    pyStrip_infixDecomp (sigPreds.foldl (fun t q => cutWhen q t) l)
  simp only [removeSignatures]
  exact noOcc_of_infixDecomp hm he u _ v _ hd h1

theorem removeSignatures_stripped (l : List Char) :
    pyStrip (removeSignatures l) = removeSignatures l := by
  simp only [removeSignatures]
  exact pyStrip_idem _

theorem removeSignatures_eq_self (l : List Char) (hs : pyStrip l = l)
    (h : ∀ p ∈ sigPreds, NoOcc p l) : removeSignatures l = l := by
  simp only [removeSignatures]
  rw [foldl_cutWhen_eq_self sigPreds l h, hs]

theorem mem_of_mem_removeSignatures {c : Char} {l : List Char}
    (h : c ∈ removeSignatures l) : c ∈ l := by
  simp only [removeSignatures] at h
  exact mem_of_mem_foldl_cutWhen (mem_of_mem_pyStrip h)

theorem mem_of_mem_collapseSpacesAux {c : Char} {b : Bool} {l : List Char}
    (h : c ∈ collapseSpacesAux b l) : c ∈ l := by
  induction l generalizing b with
  | nil => simp [collapseSpacesAux] at h
  | cons d xs ih =>
    simp only [collapseSpacesAux] at h
    by_cases hd : d = ' '
    · rw [if_pos hd] at h
      cases b with
      | true =>
        rw [if_pos rfl] at h
        exact List.mem_cons_of_mem _ (ih h)
      | false =>
        rw [if_neg (by simp)] at h
        rcases List.mem_cons.mp h with h1 | h2
        · simp [h1, hd]
        · exact List.mem_cons_of_mem _ (ih h2)
    · rw [if_neg hd] at h
      rcases List.mem_cons.mp h with h1 | h2
      · simp [h1]
      · exact List.mem_cons_of_mem _ (ih h2)

theorem collapseSpacesAux_true_head (l : List Char) :
    collapseSpacesAux true l = [] ∨
    ∃ c cs, c ≠ ' ' ∧ collapseSpacesAux true l = c :: cs := by
  induction l with
  | nil => exact Or.inl rfl
  | cons d xs ih =>
    by_cases hd : d = ' '
    · subst hd
      rw [show collapseSpacesAux true (' ' :: xs) = collapseSpacesAux true xs
          from by simp [collapseSpacesAux]]
      exact ih
    · exact Or.inr ⟨d, collapseSpacesAux false xs, hd,
        by simp [collapseSpacesAux, hd]⟩

theorem noOcc_dblSpace_collapseSpacesAux (b : Bool) (l : List Char) :
    NoOcc (isPre [' ', ' ']) (collapseSpacesAux b l) := by
  induction l generalizing b with
  | nil =>
    intro n
    rw [show collapseSpacesAux b [] = [] from rfl, List.drop_nil]
    rfl
  | cons d xs ih =>
    intro n
    by_cases hd : d = ' '
    · subst hd
      cases b with
      | true =>
        rw [show collapseSpacesAux true (' ' :: xs) = collapseSpacesAux true xs
            from by simp [collapseSpacesAux]]
        exact ih true n
      | false =>
        rw [show collapseSpacesAux false (' ' :: xs) =
              ' ' :: collapseSpacesAux true xs from by simp [collapseSpacesAux]]
        cases n with
        | zero =>
          rw [List.drop_zero]
          rcases collapseSpacesAux_true_head xs with h0 | ⟨c, cs, hc, h0⟩
          · rw [h0]
            rfl
          · rw [h0]
            simp [isPre, Ne.symm hc]
        | succ m =>
          rw [List.drop_succ_cons]
          exact ih true m
    · rw [show collapseSpacesAux b (d :: xs) = d :: collapseSpacesAux false xs
          from by simp [collapseSpacesAux, hd]]
      cases n with
      | zero =>
        rw [List.drop_zero]
        simp [isPre, Ne.symm hd]
      | succ m =>
        rw [List.drop_succ_cons]
        exact ih false m

theorem collapseSpacesAux_true_eq_false {l : List Char}
    (h : ∀ cs, l ≠ ' ' :: cs) :
    collapseSpacesAux true l = collapseSpacesAux false l := by
  cases l with
  | nil => rfl
  | cons d xs =>
    by_cases hd : d = ' '
    · exact absurd (by rw [hd] : d :: xs = ' ' :: xs) (h xs)
    · simp [collapseSpacesAux, hd]

theorem collapseSpacesAux_eq_self {l : List Char}
    (h : NoOcc (isPre [' ', ' ']) l) : collapseSpacesAux false l = l := by
  induction l with
  | nil => rfl
  | cons d xs ih =>
    have ht : NoOcc (isPre [' ', ' ']) xs := by
      intro n
      have h1 := h (n + 1)
      rwa [List.drop_succ_cons] at h1
    by_cases hd : d = ' '
    · subst hd
      rw [show collapseSpacesAux false (' ' :: xs) =
            ' ' :: collapseSpacesAux true xs from by simp [collapseSpacesAux]]
      have hns : ∀ cs, xs ≠ ' ' :: cs := by
        intro cs hcs
        have h0 := h 0
        rw [List.drop_zero, hcs] at h0
        simp [isPre] at h0
      rw [collapseSpacesAux_true_eq_false hns, ih ht]
    · rw [show collapseSpacesAux false (d :: xs) =
            d :: collapseSpacesAux false xs from by simp [collapseSpacesAux, hd],
        ih ht]

theorem replaceTabs_eq_self {l : List Char} (h : ∀ c ∈ l, c ≠ '\t') :
    replaceTabs l = l := by
  induction l with
  | nil => rfl
  | cons d xs ih =>
    have hd := h d (List.mem_cons_self d xs)
    have ht : ∀ c ∈ xs, c ≠ '\t' := fun c hc => h c (List.mem_cons_of_mem d hc)
    simp only [replaceTabs, List.map_cons]
    rw [if_neg hd]
    exact congrArg (List.cons d) (ih ht)

theorem replaceCR_eq_self {l : List Char} (h : ∀ c ∈ l, c ≠ '\x0d') :
    replaceCR l = l := by
  induction l with
  | nil => rfl
  | cons d xs ih =>
    have hd := h d (List.mem_cons_self d xs)
    have ht : ∀ c ∈ xs, c ≠ '\x0d' :=
      fun c hc => h c (List.mem_cons_of_mem d hc)
    have step : replaceCR (d :: xs) = d :: replaceCR xs := by
      rw [replaceCR.eq_def]
      split
      all_goals simp_all
    rw [step, ih ht]

theorem collapseNlAux_eq_self {l : List Char} (k : ℕ)
    (h : ∀ c ∈ l, c ≠ '\n') : collapseNlAux k l = l := by
  induction l generalizing k with
  | nil => rfl
  | cons d xs ih =>
    have hd := h d (List.mem_cons_self d xs)
    have ht : ∀ c ∈ xs, c ≠ '\n' := fun c hc => h c (List.mem_cons_of_mem d hc)
    rw [show collapseNlAux k (d :: xs) = d :: collapseNlAux 0 xs
        from by simp [collapseNlAux, hd], ih 0 ht]

theorem splitNl_eq_single {l : List Char} (h : ∀ c ∈ l, c ≠ '\n') :
    splitNl l = [l] := by
  induction l with
  | nil => rfl
  | cons d xs ih =>
    have hd := h d (List.mem_cons_self d xs)
    have ht : ∀ c ∈ xs, c ≠ '\n' := fun c hc => h c (List.mem_cons_of_mem d hc)
    have step : splitNl (d :: xs) =
        match splitNl xs with
        | l :: ls => (d :: l) :: ls
        | [] => [[d]] := by
      rw [splitNl.eq_def]
      split
      all_goals simp_all
    rw [step, ih ht]

set_option maxHeartbeats 2000000 in
theorem unescape_eq_self {l : List Char} (h : ∀ c ∈ l, c ≠ '&') :
    unescape l = l := by
  induction l with
  | nil => rfl
  | cons d xs ih =>
    have hd := h d (List.mem_cons_self d xs)
    have ht : ∀ c ∈ xs, c ≠ '&' := fun c hc => h c (List.mem_cons_of_mem d hc)
    have step : unescape (d :: xs) = d :: unescape xs := by
      rw [unescape.eq_def]
      split
      all_goals simp_all
    rw [step, ih ht]

theorem rbAux_eq_self (fuel : ℕ) {l : List Char} (h : ∀ c ∈ l, c ≠ '<') :
    rbAux fuel l = l := by
  induction fuel generalizing l with
  | zero => rfl
  | succ n ih =>
    cases l with
    | nil => rfl
    | cons d xs =>
      have hd := h d (List.mem_cons_self d xs)
      have ht : ∀ c ∈ xs, c ≠ '<' :=
        fun c hc => h c (List.mem_cons_of_mem d hc)
      have step : rbAux (n + 1) (d :: xs) = d :: rbAux n xs := by
        rw [rbAux.eq_def]
        split
        all_goals simp_all
      rw [step, ih ht]

theorem rtAux_eq_self (fuel : ℕ) {l : List Char} (h : ∀ c ∈ l, c ≠ '<') :
    rtAux fuel l = l := by
  induction fuel generalizing l with
  | zero => rfl
  | succ n ih =>
    cases l with
    | nil => rfl
    | cons d xs =>
      have hd := h d (List.mem_cons_self d xs)
      have ht : ∀ c ∈ xs, c ≠ '<' :=
        fun c hc => h c (List.mem_cons_of_mem d hc)
      have step : rtAux (n + 1) (d :: xs) = d :: rtAux n xs := by
        rw [rtAux.eq_def]
        split
        all_goals simp_all
      rw [step, ih ht]

theorem removeHtml_eq_self {l : List Char} (hAmp : ∀ c ∈ l, c ≠ '&')
    (hLt : ∀ c ∈ l, c ≠ '<') : removeHtml l = l := by
  unfold removeHtml replaceBreaks removeTags
  rw [rbAux_eq_self l.length hLt, rtAux_eq_self l.length hLt,
    unescape_eq_self hAmp]

theorem plainText_no_tab {l : List Char} (h : PlainText l) :
    ∀ c ∈ l, c ≠ '\t' := by
  intro c hc hceq
  have h1 := (h c hc).2.2.1
  rw [hceq] at h1
  exact absurd (h1 (by decide)) (by decide)

theorem plainText_no_cr {l : List Char} (h : PlainText l) :
    ∀ c ∈ l, c ≠ '\x0d' := by
  intro c hc hceq
  have h1 := (h c hc).2.2.1
  rw [hceq] at h1
  exact absurd (h1 (by decide)) (by decide)

theorem plainText_no_nl {l : List Char} (h : PlainText l) :
    ∀ c ∈ l, c ≠ '\n' := by
  intro c hc hceq
  have h1 := (h c hc).2.2.1
  rw [hceq] at h1
  exact absurd (h1 (by decide)) (by decide)

theorem normalizeWhitespace_plain {l : List Char} (h : PlainText l) :
    normalizeWhitespace l = pyStrip (collapseSpacesAux false l) := by
  simp only [normalizeWhitespace]
  rw [replaceTabs_eq_self (plainText_no_tab h),
    replaceCR_eq_self (plainText_no_cr h),
    collapseNlAux_eq_self 0 (plainText_no_nl h),
    splitNl_eq_single
      (fun c hc => plainText_no_nl h c (mem_of_mem_collapseSpacesAux hc)),
    List.map_cons, List.map_nil,
    show joinNl [pyStrip (collapseSpacesAux false l)] =
      pyStrip (collapseSpacesAux false l) from rfl,
    pyStrip_idem]

theorem clean_plain_eq {l : List Char} (hne : l ≠ []) (h : PlainText l) :
    clean l = removeSignatures (pyStrip (collapseSpacesAux false l)) := by
  have hAmp : ∀ c ∈ l, c ≠ '&' := fun c hc => (h c hc).1
  have hLt : ∀ c ∈ l, c ≠ '<' := fun c hc => (h c hc).2.1
  have hcl : clean l = pyStrip (removeSignatures (normalizeWhitespace
      (normalizeTurkish true (removeHtml (normalizeUnicode l))))) := by
    simp [clean, cleanForProcessing, hne]
  rw [hcl, show normalizeUnicode l = l from rfl,
    removeHtml_eq_self hAmp hLt,
    show normalizeTurkish true l = l from rfl,
    normalizeWhitespace_plain h, removeSignatures_stripped]

end TextProc

/-- C9 counterexample: `clean` is not idempotent.  Two independent
failures: on `"x &amp;lt; y"` the single-pass `html.unescape` decodes
`&amp;lt;` to `&lt;`, which a second `clean` decodes further to `<`;
and on `"a\n\n \nb"` the per-line strip of `normalize_whitespace` turns
the middle line `" "` into an empty line, so the text contains `\n\n\n`,
which a second `clean` collapses to `\n\n`. -/
theorem C9_counterexample :
    TextProc.clean (TextProc.clean "x &amp;lt; y".data) ≠
      TextProc.clean "x &amp;lt; y".data ∧
    TextProc.clean (TextProc.clean ("a\n\n \nb".data)) ≠
      TextProc.clean ("a\n\n \nb".data) := by
  constructor
  · decide
  · decide

/-- C9 (amended): `clean_for_processing` at the default option set is
idempotent on plain text — every character ASCII, no `&`, no `<`, and no
whitespace other than the plain space.  On that fragment the first pass
reduces to space collapsing, stripping and signature cuts, and each of
those is shown to fix the first pass's output. -/
theorem C9_clean_idempotent_plain (l : List Char) (h : TextProc.PlainText l) :
    TextProc.clean (TextProc.clean l) = TextProc.clean l := by
  by_cases hne : l = []
  · subst hne
    rfl
  · have hmem : ∀ c ∈ TextProc.removeSignatures
        (pyStrip (TextProc.collapseSpacesAux false l)), c ∈ l := by
      intro c hc
      exact TextProc.mem_of_mem_collapseSpacesAux
        (TextProc.mem_of_mem_pyStrip (TextProc.mem_of_mem_removeSignatures hc))
    have hpf : TextProc.PlainText (TextProc.removeSignatures
        (pyStrip (TextProc.collapseSpacesAux false l))) :=
      fun c hc => h c (hmem c hc)
    have hdbl : TextProc.NoOcc (isPre [' ', ' '])
        (TextProc.removeSignatures
          (pyStrip (TextProc.collapseSpacesAux false l))) :=
      TextProc.noOcc_removeSignatures_of_noOcc
        (TextProc.monoSuf_isPre [' ', ' ']) (by decide)
        (TextProc.noOcc_pyStrip_of_noOcc
          (TextProc.monoSuf_isPre [' ', ' ']) (by decide)
          (TextProc.noOcc_dblSpace_collapseSpacesAux false l))
    have hstrip : pyStrip (TextProc.removeSignatures
          (pyStrip (TextProc.collapseSpacesAux false l))) =
        TextProc.removeSignatures
          (pyStrip (TextProc.collapseSpacesAux false l)) :=
      TextProc.removeSignatures_stripped _
    have hsig : ∀ p ∈ TextProc.sigPreds, TextProc.NoOcc p
        (TextProc.removeSignatures
          (pyStrip (TextProc.collapseSpacesAux false l))) :=
      fun p hp => TextProc.removeSignatures_noOcc hp _
    have hcl := TextProc.clean_plain_eq hne h
    rw [hcl]
    by_cases hfe : TextProc.removeSignatures
        (pyStrip (TextProc.collapseSpacesAux false l)) = []
    · rw [hfe]
      rfl
    · rw [TextProc.clean_plain_eq hfe hpf,
        TextProc.collapseSpacesAux_eq_self hdbl, hstrip,
        TextProc.removeSignatures_eq_self _ hstrip hsig]

/-- C9 witness: the plainness hypothesis and the idempotence conclusion
hold at the concrete input `"ab  cd"`. -/
theorem C9_witness :
    TextProc.PlainText "ab  cd".data ∧
    TextProc.clean (TextProc.clean "ab  cd".data) =
      TextProc.clean "ab  cd".data :=
  ⟨by decide, C9_clean_idempotent_plain "ab  cd".data (by decide)⟩

end SupportIQ
